import Mathlib

/-!
# Verification of the AndroidStarter rendering core

Shallow embedding of the repository's rendering core:

* `src/matrices/src/lib.rs` — the transform-composition stack
  (`TransformHierarchy`, `TransformLock`);
* `src/opengl_graphics/src/back_end.rs` — the batching backend
  (`GlGraphics`, `Colored`, `Textured`, `tri_list`, `tri_list_uv`,
  `shader_draw`, `use_program`, `draw_begin`/`draw_end`);
* `src/android_rs_base/src/storage.rs` — the type-keyed shader registry
  (`ShaderStorage::get`).

Rust panics (slice-bound violations, `assert!`, explicit `panic!`,
`unwrap` on `None`) are modelled as `Except.error`; GPU calls that carry
data out of the program (`gl::DrawArrays` inside `flush`,
`gl::UseProgram`) are modelled as logs in the state, so that flush events
and program binds can be counted and their payloads inspected.
Opaque GPU-side payloads (vertex positions `[f32; 2]`, colours
`[f32; 4]`, uv coordinates, normals, draw states, texture ids, program
handles) are never computed with — only copied and compared — so they
are represented by `ℕ` codes; the colour conversion
`gamma_srgb_to_linear` lives in the external `graphics` crate and is
passed in as an abstract function on colour codes.
-/

namespace AndroidStarter

/-- Opaque vertex position payload (`[f32; 2]` in the source). -/
abbrev Vertex := ℕ

/-- Opaque texture coordinate payload (`[f32; 2]` in the source). -/
abbrev UVCoord := ℕ

/-- Opaque colour payload (`[f32; 4]` in the source). -/
abbrev Color := ℕ

/-- Opaque normal payload (`[f32; 3]` in the source). -/
abbrev Normal := ℕ

/-- Opaque draw state (`graphics::DrawState`: blend/stencil/scissor),
only ever compared for equality by the backend. -/
abbrev DrawState := ℕ

/-- `Default::default()` for draw states (`tri_list`/`tri_list_uv` bind it
when no draw state is recorded yet). -/
def defaultDrawState : DrawState := 0

/-! ## Transform hierarchy — `src/matrices/src/lib.rs` -/

/-- Panics of the matrices crate. -/
inductive MatErr where
  /-- `self.matrices.last().cloned().unwrap()` on an empty `Vec`. -/
  | emptyUnwrap
  /-- `pop_one`: "Cannot pop past the first element: The identity." -/
  | popPastRoot
deriving Repr, DecidableEq

/-- `TransformHierarchy<T, F>`: the composed-transform stack.
`matrices` is the `Vec<T>` (last element = top); `order_func` is the
stored `F: Fn(T, T, T) -> T`. -/
structure TransformHierarchy (T : Type) where
  matrices : List T
  order_func : T → T → T → T

namespace TransformHierarchy

variable {T : Type}

/-- `TransformHierarchy::new(identity, func)`. -/
def new (identity : T) (func : T → T → T → T) : TransformHierarchy T :=
  { order_func := func, matrices := [identity] }

/-- The current top of the stack (`matrices.last()`). -/
def top (h : TransformHierarchy T) : Option T :=
  h.matrices.getLast?

/-- `TransformHierarchy::push(push_scale, push_rotate, push_translate)`:
reads the top (`last().cloned().unwrap()`), multiplies it with
`order_func(scale, rotate, translate)` and appends the result.  The
returned `TransformLock::With { index = old length }` is represented by
the updated hierarchy itself; releasing the lock is a separate operation
(`pop_one`). -/
def push [Mul T] (h : TransformHierarchy T) (ps pr pt : T) :
    Except MatErr (TransformHierarchy T) :=
  match h.matrices.getLast? with
  | none => .error .emptyUnwrap
  | some previous =>
      .ok { h with
            matrices := h.matrices ++ [previous * h.order_func ps pr pt] }

/-- `TransformHierarchy::pop_one`: pops the last element unless only the
root remains, in which case it panics. -/
def pop_one (h : TransformHierarchy T) :
    Except MatErr (T × TransformHierarchy T) :=
  if h.matrices.length > 1 then
    match h.matrices.getLast? with
    | some v => .ok (v, { h with matrices := h.matrices.dropLast })
    | none => .error .emptyUnwrap
  else
    .error .popPastRoot

end TransformHierarchy

/-- The operations a caller can perform on a `TransformHierarchy` through
its public interface: `push` (which hands out a `With` lock),
`push_none` (which hands out a `Without` lock), and dropping either kind
of lock (`TransformLock::drop` calls `pop_one` for `With` locks only). -/
inductive StackOp (T : Type) where
  | push (ps pr pt : T)
  | pushNone
  | releaseWith
  | releaseWithout

/-- One caller operation on the stack. -/
def applyOp [Mul T] (h : TransformHierarchy T) (op : StackOp T) :
    Except MatErr (TransformHierarchy T) :=
  match op with
  | .push ps pr pt => h.push ps pr pt
  | .pushNone => .ok h
  | .releaseWith => (h.pop_one).map (·.2)
  | .releaseWithout => .ok h

/-- A sequence of caller operations, first operation first; stops at the
first panic. -/
def runOps [Mul T] (ops : List (StackOp T)) (h : TransformHierarchy T) :
    Except MatErr (TransformHierarchy T) :=
  match ops with
  | [] => .ok h
  | op :: rest =>
      match applyOp h op with
      | .ok h' => runOps rest h'
      | .error e => .error e

/-- A sequence of pushes only (claim about `value(k)`), first push
first. -/
def runPushes [Mul T] (ps : List (T × T × T)) (h : TransformHierarchy T) :
    Except MatErr (TransformHierarchy T) :=
  match ps with
  | [] => .ok h
  | (s, r, t) :: rest =>
      match h.push s r t with
      | .ok h' => runPushes rest h'
      | .error e => .error e

/-! ## Batching backend — `src/opengl_graphics/src/back_end.rs` -/

/-- `const CHUNKS: usize = 100` (back_end.rs line 21). -/
def CHUNKS : ℕ := 100

/-- Buffer capacity `CHUNKS * BUFFER_SIZE`, where `BUFFER_SIZE` is
`graphics::BACK_END_MAX_VERTEX_COUNT` from the external `graphics`
crate, kept as a parameter `bs`.  Both the allocation
(`vec![_; CHUNKS * BUFFER_SIZE]`) and the overflow checks
(`offset + items > BUFFER_SIZE * CHUNKS`) use this value. -/
def capacity (bs : ℕ) : ℕ := CHUNKS * bs

/-- Rust panics of the backend. -/
inductive GlErr where
  /-- Explicit `panic!`/failed `assert!` signalling a caller error
  (channel-presence or vertex-count mismatch). -/
  | usageViolation
  /-- The capacity `assert!` in `shader_draw` ("... too many items being
  drawn at once."). -/
  | capacityAssert
  /-- Slice write out of range: `buf[offset..offset + items]` with
  `offset + items` past the end of a pre-allocated buffer. -/
  | indexOutOfBounds
  /-- The `unreachable!()` arm of the texture-id match in
  `shader_draw`. -/
  | unreachableReached
deriving Repr, DecidableEq

/-- The `Colored` shader (back_end.rs lines 24-147).  `pending` is the
in-use region `pos_buffer[..offset]` zipped with `color_buffer[..offset]`
(the code pre-allocates both to `CHUNKS * BUFFER_SIZE` entries and only
ever reads below `offset`), so `offset = pending.length`.  `flushed`
logs each `flush` event's submitted vertex data, oldest first. -/
structure Colored where
  program : ℕ
  pending : List (Vertex × Color)
  flushed : List (List (Vertex × Color))
deriving Repr, DecidableEq

/-- `shader.offset` for `Colored`. -/
def Colored.offset (c : Colored) : ℕ := c.pending.length

/-- `Colored::flush`: submits `pos_buffer[..offset]`/`color_buffer[..offset]`
via `gl::DrawArrays` and resets `offset` to 0 (back_end.rs lines 66-83). -/
def Colored.flush (c : Colored) : Colored :=
  { c with flushed := c.flushed ++ [c.pending], pending := [] }

/-- A fresh `Colored` as built by `Colored::from_vs_fs`: zeroed buffers,
`offset = 0` (GPU compilation is outside the model; the program handle is
a parameter). -/
def Colored.new (program : ℕ) : Colored :=
  { program := program, pending := [], flushed := [] }

/-- The `Textured` shader (back_end.rs lines 150-285).  `pending` is
`pos_buffer[..offset]` zipped with `uv_buffer[..offset]`; `flushed` logs
each flush's bound texture id, uniform colour, and submitted vertex
data. -/
structure Textured where
  program : ℕ
  pending : List (Vertex × UVCoord)
  last_texture_id : ℕ
  last_color : Color
  flushed : List (ℕ × Color × List (Vertex × UVCoord))
deriving Repr, DecidableEq

/-- `shader.offset` for `Textured`. -/
def Textured.offset (t : Textured) : ℕ := t.pending.length

/-- `Textured::flush`: binds `last_texture_id`, sets the colour uniform
from `last_color`, submits the buffered vertices, resets `offset`
(back_end.rs lines 195-212). -/
def Textured.flush (t : Textured) : Textured :=
  { t with
    flushed := t.flushed ++ [(t.last_texture_id, t.last_color, t.pending)],
    pending := [] }

/-- A fresh `Textured` as built by `Textured::from_vs_fs`:
`offset = 0`, `last_texture_id = 0`, `last_color = [0.0; 4]` (colour
code 0). -/
def Textured.new (program : ℕ) : Textured :=
  { program := program, pending := [], last_texture_id := 0,
    last_color := 0, flushed := [] }

/-- `GlGraphics` (back_end.rs lines 295-304).  `binds` logs every
`gl::UseProgram` call issued by `use_program`.  The current viewport is
not tracked: no claim reads it and it only feeds scissor binding inside
`use_draw_state`, whose GPU effect is outside the model. -/
structure GlGraphics where
  colored : Colored
  textured : Textured
  current_program : Option ℕ
  current_draw_state : Option DrawState
  binds : List ℕ
deriving Repr, DecidableEq

/-- `GlGraphics::new` (given the two linked programs): fresh shaders,
no current program, no current draw state. -/
def GlGraphics.new (coloredProgram texturedProgram : ℕ) : GlGraphics :=
  { colored := Colored.new coloredProgram,
    textured := Textured.new texturedProgram,
    current_program := none,
    current_draw_state := none,
    binds := [] }

/-- `GlGraphics::use_program` (back_end.rs lines 358-372): returns early
when `program` is already the recorded current program; otherwise issues
`gl::UseProgram` and records it. -/
def GlGraphics.use_program (g : GlGraphics) (program : ℕ) : GlGraphics :=
  match g.current_program with
  | some current_program =>
      if program = current_program then g
      else { g with binds := g.binds ++ [program],
                    current_program := some program }
  | none =>
      { g with binds := g.binds ++ [program],
               current_program := some program }

/-- `GlGraphics::clear_program` (back_end.rs lines 377-379). -/
def GlGraphics.clear_program (g : GlGraphics) : GlGraphics :=
  { g with current_program := none }

/-- `GlGraphics::use_draw_state` (back_end.rs lines 382-394): binds the
blend/stencil/scissor state on the GPU (outside the model) and records
it. -/
def GlGraphics.use_draw_state (g : GlGraphics) (draw_state : DrawState) :
    GlGraphics :=
  { g with current_draw_state := some draw_state }

/-- `GlGraphics::draw_begin` (back_end.rs lines 404-411): sets the GPU
viewport (outside the model), records it (untracked), and invalidates
the current program. -/
def GlGraphics.draw_begin (g : GlGraphics) : GlGraphics :=
  g.clear_program

/-- `GlGraphics::draw_end` (back_end.rs lines 414-425): flushes
`Colored` then `Textured` when each has pending data, binding the
shader's program first. -/
def GlGraphics.draw_end (g : GlGraphics) : GlGraphics :=
  let g := if g.colored.offset > 0 then
             let g := g.use_program g.colored.program
             { g with colored := g.colored.flush }
           else g
  if g.textured.offset > 0 then
    let g := g.use_program g.textured.program
    { g with textured := g.textured.flush }
  else g

/-- The body of the vertex-supplying closure of `tri_list`
(back_end.rs lines 594-611): flush early when the batch would not fit,
then write the batch's positions and broadcast `color` (already
linear-converted) into `[offset..offset + items]` and advance `offset`.
The writes are in-bounds exactly when `offset + items ≤ capacity bs`
(both buffers hold `CHUNKS * BUFFER_SIZE` entries); otherwise the code
panics on the slice write. -/
def GlGraphics.tri_list_append (bs : ℕ) (color : Color) (g : GlGraphics)
    (vertices : List Vertex) : Except GlErr GlGraphics :=
  let items := vertices.length
  let g := if g.colored.offset + items > capacity bs then
             let g := g.use_program g.colored.program
             { g with colored := g.colored.flush }
           else g
  if g.colored.offset + items ≤ capacity bs then
    .ok { g with colored :=
            { g.colored with
              pending := g.colored.pending ++ vertices.map (fun v => (v, color)) } }
  else
    .error .indexOutOfBounds

/-- The sequence of invocations a `tri_list` caller makes through the
supplied closure, one list of vertices per invocation, first invocation
first. -/
def GlGraphics.tri_list_go (bs : ℕ) (color : Color)
    (batches : List (List Vertex)) (g : GlGraphics) :
    Except GlErr GlGraphics :=
  match batches with
  | [] => .ok g
  | b :: rest =>
      match g.tri_list_append bs color b with
      | .ok g' => g'.tri_list_go bs color rest
      | .error e => .error e

/-- `GlGraphics::tri_list` (back_end.rs lines 569-612): convert the
colour to linear space (`gamma` stands for
`graphics::color::gamma_srgb_to_linear`), flush `Textured` if it has
pending data, flush `Colored` and rebind on a draw-state change, then
run the caller's batch invocations. -/
def GlGraphics.tri_list (bs : ℕ) (gamma : Color → Color)
    (draw_state : DrawState) (color : Color)
    (batches : List (List Vertex)) (g : GlGraphics) :
    Except GlErr GlGraphics :=
  let color := gamma color
  let g := if g.textured.offset > 0 then
             let g := g.use_program g.textured.program
             { g with textured := g.textured.flush }
           else g
  let g :=
    if g.current_draw_state = none ∨ g.current_draw_state ≠ some draw_state then
      let g := g.use_program g.colored.program
      let g := if g.current_draw_state = none then
                 g.use_draw_state defaultDrawState
               else g
      let g := if g.colored.offset > 0 then
                 { g with colored := g.colored.flush }
               else g
      g.use_draw_state draw_state
    else g
  g.tri_list_go bs color batches

/-- The body of the closure of `tri_list_uv` (back_end.rs lines
648-664): flush early when the batch would not fit, then copy positions
and texture coordinates into `[offset..offset + items]` and advance
`offset`.  `copy_from_slice` additionally panics when the supplied uv
slice's length differs from the vertex count. -/
def GlGraphics.tri_list_uv_append (bs : ℕ) (g : GlGraphics)
    (vertices : List Vertex) (texture_coords : List UVCoord) :
    Except GlErr GlGraphics :=
  let items := vertices.length
  let g := if g.textured.offset + items > capacity bs then
             let g := g.use_program g.textured.program
             { g with textured := g.textured.flush }
           else g
  if g.textured.offset + items ≤ capacity bs then
    if texture_coords.length = items then
      .ok { g with textured :=
              { g.textured with
                pending := g.textured.pending ++ vertices.zip texture_coords } }
    else
      .error .indexOutOfBounds
  else
    .error .indexOutOfBounds

/-- The sequence of invocations a `tri_list_uv` caller makes through the
supplied closure. -/
def GlGraphics.tri_list_uv_go (bs : ℕ)
    (batches : List (List Vertex × List UVCoord)) (g : GlGraphics) :
    Except GlErr GlGraphics :=
  match batches with
  | [] => .ok g
  | (vs, uvs) :: rest =>
      match g.tri_list_uv_append bs vs uvs with
      | .ok g' => g'.tri_list_uv_go bs rest
      | .error e => .error e

/-- `GlGraphics::tri_list_uv` (back_end.rs lines 614-665): convert the
colour, flush `Colored` if it has pending data, flush `Textured` and
rebind when the draw state, the texture id (`texture.get_id()`, passed
here as `textureId`), or the converted colour changed, record the new
texture id and colour, then run the caller's batch invocations. -/
def GlGraphics.tri_list_uv (bs : ℕ) (gamma : Color → Color)
    (draw_state : DrawState) (color : Color) (textureId : ℕ)
    (batches : List (List Vertex × List UVCoord)) (g : GlGraphics) :
    Except GlErr GlGraphics :=
  let color := gamma color
  let g := if g.colored.offset > 0 then
             let g := g.use_program g.colored.program
             { g with colored := g.colored.flush }
           else g
  let g :=
    if g.current_draw_state = none ∨ g.current_draw_state ≠ some draw_state ∨
       g.textured.last_texture_id ≠ textureId ∨
       g.textured.last_color ≠ color then
      let g := if g.current_draw_state = none then
                 g.use_draw_state defaultDrawState
               else g
      let g := if g.textured.offset > 0 then
                 let g := g.use_program g.textured.program
                 { g with textured := g.textured.flush }
               else g
      g.use_draw_state draw_state
    else g
  let g := { g with textured :=
               { g.textured with last_texture_id := textureId,
                                 last_color := color } }
  g.tri_list_uv_go bs batches

/-- A whole colour-fill frame: `draw_begin`, a sequence of `tri_list`
calls (each with its list of closure invocations) sharing one draw
state and one colour, then `draw_end`. -/
def GlGraphics.tri_list_calls (bs : ℕ) (gamma : Color → Color)
    (draw_state : DrawState) (color : Color)
    (calls : List (List (List Vertex))) (g : GlGraphics) :
    Except GlErr GlGraphics :=
  match calls with
  | [] => .ok g
  | c :: rest =>
      match g.tri_list bs gamma draw_state color c with
      | .ok g' => g'.tri_list_calls bs gamma draw_state color rest
      | .error e => .error e

/-- `draw_begin`; the `tri_list` calls; `draw_end`. -/
def triListSession (bs : ℕ) (gamma : Color → Color)
    (draw_state : DrawState) (color : Color)
    (calls : List (List (List Vertex))) (g : GlGraphics) :
    Except GlErr GlGraphics :=
  match (g.draw_begin).tri_list_calls bs gamma draw_state color calls with
  | .ok g' => .ok g'.draw_end
  | .error e => .error e

/-- A sequence of `tri_list_uv` calls, each with its own draw state,
colour, texture id and closure invocations, first call first. -/
def GlGraphics.tri_list_uv_calls (bs : ℕ) (gamma : Color → Color)
    (calls : List (DrawState × Color × ℕ ×
      List (List Vertex × List UVCoord)))
    (g : GlGraphics) : Except GlErr GlGraphics :=
  match calls with
  | [] => .ok g
  | (ds, c, tid, batches) :: rest =>
      match g.tri_list_uv bs gamma ds c tid batches with
      | .ok g' => g'.tri_list_uv_calls bs gamma rest
      | .error e => .error e

/-- A whole textured-fill frame: `draw_begin`, a sequence of
`tri_list_uv` calls, then `draw_end`. -/
def triListUvSession (bs : ℕ) (gamma : Color → Color)
    (calls : List (DrawState × Color × ℕ ×
      List (List Vertex × List UVCoord)))
    (g : GlGraphics) : Except GlErr GlGraphics :=
  match (g.draw_begin).tri_list_uv_calls bs gamma calls with
  | .ok g' => .ok g'.draw_end
  | .error e => .error e

/-- Two consecutive `tri_list_uv` calls (no `draw_end`), as the
consecutive-call claims discuss them. -/
def twoUvCalls (bs : ℕ) (gamma : Color → Color)
    (ds1 : DrawState) (c1 : Color) (tid1 : ℕ)
    (batches1 : List (List Vertex × List UVCoord))
    (ds2 : DrawState) (c2 : Color) (tid2 : ℕ)
    (batches2 : List (List Vertex × List UVCoord))
    (g : GlGraphics) : Except GlErr GlGraphics :=
  match g.tri_list_uv bs gamma ds1 c1 tid1 batches1 with
  | .ok g₁ => g₁.tri_list_uv bs gamma ds2 c2 tid2 batches2
  | .error e => .error e

/-- A custom shader seen through the `Shader` trait
(`src/opengl_graphics/src/shader_utils.rs` lines 281-306), as
`shader_draw` uses it.  Optional channels are `Option` fields mirroring
the optional buffer accessors (`some` iff the channel is declared); each
present buffer holds the in-use region below the shared fill `offset`,
the pre-allocated length of every buffer being `cap`
(`pos_buffer().len()` in the overflow check).  `flushCount` counts
`flush` calls. -/
structure CustomShader where
  program : ℕ
  cap : ℕ
  pending : List Vertex
  colour : Option (List Color)
  uv : Option (List UVCoord)
  normal : Option (List Normal)
  indexBuf : Option (List ℕ)
  texture_id : Option ℕ
  has_texture : Bool
  flushCount : ℕ
deriving Repr, DecidableEq

/-- `shader.offset()` for a custom shader. -/
def CustomShader.offset (sh : CustomShader) : ℕ := sh.pending.length

/-- The shader-contract obligation of `flush` (spec of `Shader::flush`,
honoured by `Colored::flush` and `Textured::flush`): submit the buffered
vertices up to `offset` as one draw call and reset `offset` to 0. -/
def CustomShader.flush (sh : CustomShader) : CustomShader :=
  { sh with pending := [],
            colour := sh.colour.map (fun _ => []),
            uv := sh.uv.map (fun _ => []),
            normal := sh.normal.map (fun _ => []),
            indexBuf := sh.indexBuf.map (fun _ => []),
            flushCount := sh.flushCount + 1 }

/-- The colour-channel match of `shader_draw` (back_end.rs lines
489-501): presence must agree with the supplied array, the array length
must equal the vertex count, and each entry is written linear-converted
at `[offset..offset + items]`. -/
def colour_step (gamma : Color → Color) (items : ℕ)
    (colour : Option (List Color)) (sh : CustomShader) :
    Except GlErr CustomShader :=
  match sh.colour, colour with
  | none, some _ => .error .usageViolation
  | some buf, some src =>
      if src.length = items then
        if sh.offset + items ≤ sh.cap then
          .ok { sh with colour := some (buf ++ src.map gamma) }
        else .error .indexOutOfBounds
      else .error .usageViolation
  | some _, none => .error .usageViolation
  | none, none => .ok sh

/-- The uv/texture match of `shader_draw` (back_end.rs lines 502-515):
the uv channel must be declared iff `has_texture()`, a texture+uv pair
must be supplied iff `has_texture()`, and the uv array length must equal
the vertex count. -/
def uv_step (items : ℕ) (texture : Option (ℕ × List UVCoord))
    (sh : CustomShader) : Except GlErr CustomShader :=
  match sh.uv, sh.has_texture, texture with
  | some _, false, _ => .error .usageViolation
  | none, true, _ => .error .usageViolation
  | none, false, some _ => .error .usageViolation
  | some _, true, none => .error .usageViolation
  | some buf, true, some (_, src) =>
      if src.length = items then
        if sh.offset + items ≤ sh.cap then
          .ok { sh with uv := some (buf ++ src) }
        else .error .indexOutOfBounds
      else .error .usageViolation
  | none, false, none => .ok sh

/-- The texture-id match of `shader_draw` (back_end.rs lines 516-520):
`(None, None)` does nothing, `(Some, Some)` stores the texture's id, the
remaining combinations hit `unreachable!()`. -/
def texture_id_step (texture : Option (ℕ × List UVCoord))
    (sh : CustomShader) : Except GlErr CustomShader :=
  match sh.texture_id, texture with
  | none, none => .ok sh
  | some _, some (tid, _) => .ok { sh with texture_id := some tid }
  | _, _ => .error .unreachableReached

/-- The normal-channel match of `shader_draw` (back_end.rs lines
522-533): presence must agree and the length must equal the vertex
count. -/
def normal_step (items : ℕ) (normals : Option (List Normal))
    (sh : CustomShader) : Except GlErr CustomShader :=
  match sh.normal, normals with
  | none, some _ => .error .usageViolation
  | some buf, some src =>
      if src.length = items then
        if sh.offset + items ≤ sh.cap then
          .ok { sh with normal := some (buf ++ src) }
        else .error .indexOutOfBounds
      else .error .usageViolation
  | some _, none => .error .usageViolation
  | none, none => .ok sh

/-- The index match of `shader_draw` (back_end.rs lines 534-540):
supplying indices to a shader without an index buffer panics; a shader
with an index buffer extends it by the supplied indices; every other
combination — including omitting indices for a shader that declares an
index buffer — does nothing. -/
def index_step (indices : Option (List ℕ)) (sh : CustomShader) :
    Except GlErr CustomShader :=
  match sh.indexBuf, indices with
  | none, some _ => .error .usageViolation
  | some buf, some src => .ok { sh with indexBuf := some (buf ++ src) }
  | _, _ => .ok sh

/-- The position write of `shader_draw` (back_end.rs lines 541-543):
copy the vertices into `pos_buffer[offset..offset + items]` and advance
`offset`. -/
def pos_step (vertices : List Vertex) (sh : CustomShader) :
    Except GlErr CustomShader :=
  if sh.offset + vertices.length ≤ sh.cap then
    .ok { sh with pending := sh.pending ++ vertices }
  else .error .indexOutOfBounds

/-- The channel-validation and append tail of `shader_draw` (everything
after the capacity check), ending with the eager `shader.flush()` and
`self.clear_program()`. -/
def shader_draw_rest (gamma : Color → Color) (sh : CustomShader)
    (vertices : List Vertex) (indices : Option (List ℕ))
    (texture : Option (ℕ × List UVCoord)) (colour : Option (List Color))
    (normals : Option (List Normal)) (g : GlGraphics) :
    Except GlErr (CustomShader × GlGraphics) :=
  match colour_step gamma vertices.length colour sh with
  | .error e => .error e
  | .ok sh =>
    match uv_step vertices.length texture sh with
    | .error e => .error e
    | .ok sh =>
      match texture_id_step texture sh with
      | .error e => .error e
      | .ok sh =>
        match normal_step vertices.length normals sh with
        | .error e => .error e
        | .ok sh =>
          match index_step indices sh with
          | .error e => .error e
          | .ok sh =>
            match pos_step vertices sh with
            | .error e => .error e
            | .ok sh => .ok (sh.flush, g.clear_program)

/-- `GlGraphics::shader_draw` (back_end.rs lines 446-547): flush both
fixed shaders if pending, bind the custom shader's program, run the
caller's uniform callback (caller code, outside the model: it is not
given access to the tracked state here), update the draw state if
changed, flush early on capacity overflow with the
`assert!(offset + items > *shader.offset() + items)` guard, validate and
append every channel, then flush eagerly and invalidate the current
program. -/
def GlGraphics.shader_draw (gamma : Color → Color) (sh : CustomShader)
    (draw_state : DrawState) (vertices : List Vertex)
    (indices : Option (List ℕ)) (texture : Option (ℕ × List UVCoord))
    (colour : Option (List Color)) (normals : Option (List Normal))
    (g : GlGraphics) : Except GlErr (CustomShader × GlGraphics) :=
  let g := if g.textured.offset > 0 then
             let g := g.use_program g.textured.program
             { g with textured := g.textured.flush }
           else g
  let g := if g.colored.offset > 0 then
             let g := g.use_program g.colored.program
             { g with colored := g.colored.flush }
           else g
  let g := g.use_program sh.program
  let g := if g.current_draw_state = none ∨
              g.current_draw_state ≠ some draw_state then
             g.use_draw_state draw_state
           else g
  let items := vertices.length
  let offset0 := sh.offset
  if offset0 + items > sh.cap then
    let sh := sh.flush
    if offset0 + items > sh.offset + items then
      shader_draw_rest gamma sh vertices indices texture colour normals g
    else
      .error .capacityAssert
  else
    shader_draw_rest gamma sh vertices indices texture colour normals g

/-! ## Shader registry — `src/android_rs_base/src/storage.rs` -/

/-- `ViewProj`: the shared camera cache (view and projection matrices as
opaque codes; `Default` is the identity matrix for both, coded 0). -/
structure ViewProj where
  view : ℕ
  projection : ℕ
deriving Repr, DecidableEq

/-- `ViewProj::default()`. -/
def ViewProj.default : ViewProj := { view := 0, projection := 0 }

/-- `ShaderStorage`: `HashMap<TypeId, Box<dyn Any>>` plus the camera
cache.  `TypeId`s are coded as `ℕ`; the map is an association list in
insertion order. -/
structure ShaderStorage (S : Type) where
  shaders : List (ℕ × S)
  cache : ViewProj

/-- Lookup in the type-keyed map. -/
def lookupTid {S : Type} : List (ℕ × S) → ℕ → Option S
  | [], _ => none
  | (k, v) :: rest, tid => if k = tid then some v else lookupTid rest tid

/-- `ShaderStorage::new()`. -/
def ShaderStorage.new (S : Type) : ShaderStorage S :=
  { shaders := [], cache := ViewProj.default }

/-- `ShaderStorage::get::<T>` (storage.rs lines 72-83):
`entry(TypeId::of::<T>()).or_insert_with(|| Box::new(T::new(..)))`,
downcast (which always succeeds for the matching key), and the camera
cache.  `mk` is `T::new(gl, Some(graphics))`; the returned `Bool`
records whether `or_insert_with` ran the constructor. -/
def ShaderStorage.get {S : Type} (st : ShaderStorage S) (tid : ℕ)
    (mk : Unit → S) : (S × ViewProj) × ShaderStorage S × Bool :=
  match lookupTid st.shaders tid with
  | some s => ((s, st.cache), st, false)
  | none =>
      let s := mk ()
      ((s, st.cache), { st with shaders := st.shaders ++ [(tid, s)] }, true)

/-- When the optional array is supplied, its length must equal the
vertex count. -/
def lenCheck {α : Type} (o : Option (List α)) (items : ℕ) : Bool :=
  match o with
  | some src => src.length == items
  | none => true

/-- When the optional value is supplied, the flag must hold. -/
def flagCheck {α : Type} (o : Option α) (b : Bool) : Bool :=
  match o with
  | some _ => b
  | none => true

/-- The channel-supply discipline `shader_draw` actually polices with a
usage panic: colour and normal arrays present iff declared, with lengths
equal to the vertex count; a texture+uv pair present iff the shader
`has_texture()`, with matching uv length; indices allowed only when an
index buffer is declared (omitting indices for a declared index buffer
is accepted, and index lengths are never checked). -/
def suppliedOk (sh : CustomShader) (items : ℕ) (indices : Option (List ℕ))
    (texture : Option (ℕ × List UVCoord)) (colour : Option (List Color))
    (normals : Option (List Normal)) : Bool :=
  (sh.colour.isSome == colour.isSome) &&
  lenCheck colour items &&
  (texture.isSome == sh.has_texture) &&
  lenCheck (texture.map (fun p => p.2)) items &&
  (sh.normal.isSome == normals.isSome) &&
  lenCheck normals items &&
  flagCheck indices sh.indexBuf.isSome

/-! ## Result projections used by concrete evaluations -/

/-- Whether a backend run completed without a panic. -/
def okB {α : Type} : Except GlErr α → Bool
  | .ok _ => true
  | .error _ => false

/-- Number of `Colored` flush events of a completed run (0 for a
panicked run). -/
def coloredFlushCountOf : Except GlErr GlGraphics → ℕ
  | .ok g => g.colored.flushed.length
  | .error _ => 0

/-- Number of `Textured` flush events of a completed run (0 for a
panicked run). -/
def texturedFlushCountOf : Except GlErr GlGraphics → ℕ
  | .ok g => g.textured.flushed.length
  | .error _ => 0

/-! ## Transform-stack lemmas -/

namespace TransformHierarchy

variable {T : Type}

lemma push_eq_of_top [Mul T] (h : TransformHierarchy T) (s r t prev : T)
    (hp : h.top = some prev) :
    h.push s r t =
      .ok { h with matrices := h.matrices ++ [prev * h.order_func s r t] } := by
  unfold push
  unfold top at hp
  rw [hp]

lemma top_isSome [Mul T] (h : TransformHierarchy T)
    (hne : h.matrices ≠ []) : ∃ v, h.top = some v := by
  unfold top
  cases hm : h.matrices.getLast? with
  | some v => exact ⟨v, rfl⟩
  | none => exact absurd (List.getLast?_eq_none_iff.mp hm) hne

end TransformHierarchy

lemma runPushes_ok {T : Type} [Mul T] (ps : List (T × T × T))
    (h : TransformHierarchy T) (hne : h.matrices ≠ []) :
    ∃ h', runPushes ps h = .ok h' ∧ h'.matrices ≠ [] ∧
      h'.order_func = h.order_func := by
  induction ps generalizing h with
  | nil => exact ⟨h, rfl, hne, rfl⟩
  | cons p rest ih =>
      obtain ⟨s, r, t⟩ := p
      obtain ⟨prev, hprev⟩ := h.top_isSome hne
      have hpush := h.push_eq_of_top s r t prev hprev
      obtain ⟨h', hrun, hne', hf'⟩ :=
        ih { h with matrices := h.matrices ++ [prev * h.order_func s r t] }
          (by simp)
      refine ⟨h', ?_, hne', hf'⟩
      rw [runPushes, hpush]
      exact hrun

lemma runPushes_append_ok {T : Type} [Mul T] (ps qs : List (T × T × T))
    (h h₁ : TransformHierarchy T) (hok : runPushes ps h = .ok h₁) :
    runPushes (ps ++ qs) h = runPushes qs h₁ := by
  induction ps generalizing h with
  | nil =>
      rw [runPushes] at hok
      cases hok
      rfl
  | cons p rest ih =>
      obtain ⟨s, r, t⟩ := p
      rw [runPushes] at hok
      rw [List.cons_append, runPushes]
      cases hp : h.push s r t with
      | ok h' =>
          rw [hp] at hok
          exact ih h' hok
      | error e => rw [hp] at hok; cases hok

lemma applyOp_inv {T : Type} [Mul T] {idv : T} {h h' : TransformHierarchy T}
    (op : StackOp T) (hhd : h.matrices.head? = some idv)
    (hok : applyOp h op = .ok h') :
    h'.matrices ≠ [] ∧ h'.matrices.head? = some idv := by
  cases hl : h.matrices with
  | nil => rw [hl] at hhd; cases hhd
  | cons a tl =>
    rw [hl] at hhd
    have ha : a = idv := by simpa using hhd
    cases op with
    | push ps pr pt =>
        unfold applyOp TransformHierarchy.push at hok
        cases hm : h.matrices.getLast? with
        | none => rw [hm] at hok; cases hok
        | some prev =>
            rw [hm] at hok
            cases hok
            simp [hl, ha]
    | pushNone =>
        cases hok
        simp [hl, ha]
    | releaseWith =>
        unfold applyOp TransformHierarchy.pop_one at hok
        by_cases hlen : h.matrices.length > 1
        · rw [if_pos hlen] at hok
          cases hm : h.matrices.getLast? with
          | none => rw [hm] at hok; cases hok
          | some v =>
              rw [hm] at hok
              cases hok
              cases htl : tl with
              | nil => rw [hl, htl] at hlen; simp at hlen
              | cons b tl' =>
                  constructor
                  · simp [hl, htl, List.dropLast]
                  · simp [hl, htl, List.dropLast, ha]
        · rw [if_neg hlen] at hok; cases hok
    | releaseWithout =>
        cases hok
        simp [hl, ha]

lemma runOps_inv {T : Type} [Mul T] {idv : T} (ops : List (StackOp T))
    (h : TransformHierarchy T) (hhd : h.matrices.head? = some idv) :
    ∀ h', runOps ops h = .ok h' →
      h'.matrices ≠ [] ∧ h'.matrices.head? = some idv := by
  induction ops generalizing h with
  | nil =>
      intro h' hok
      rw [runOps] at hok
      cases hok
      refine ⟨?_, hhd⟩
      intro hnil
      rw [hnil] at hhd
      cases hhd
  | cons op rest ih =>
      intro h' hok
      rw [runOps] at hok
      cases hstep : applyOp h op with
      | ok h₁ =>
          rw [hstep] at hok
          exact ih h₁ (applyOp_inv op hhd hstep).2 h' hok
      | error e => rw [hstep] at hok; cases hok

/-! ## Claims C3, C7, C8 — the transform stack -/

/-- **C3.** For every transform hierarchy seeded with an identity value
and every sequence of pushes `P1..Pn`, after the `k`-th push the top of
the stack satisfies `value(k) = value(k-1) * orderFunction(scale_k,
rotate_k, translate_k)`, where `value(0)` is the seed identity. -/
theorem c3_push_composes {T : Type} [Mul T] (idv : T) (f : T → T → T → T)
    (ps : List (T × T × T)) (k : ℕ) (hk : k < ps.length) :
    ∃ h₁ h₂ v₁,
      runPushes (ps.take k) (TransformHierarchy.new idv f) = .ok h₁ ∧
      h₁.top = some v₁ ∧
      runPushes (ps.take (k + 1)) (TransformHierarchy.new idv f) = .ok h₂ ∧
      h₂.top = some (v₁ * f (ps.get ⟨k, hk⟩).1 (ps.get ⟨k, hk⟩).2.1
        (ps.get ⟨k, hk⟩).2.2) := by
  obtain ⟨h₁, hrun₁, hne₁, hf₁⟩ :=
    runPushes_ok (ps.take k) (TransformHierarchy.new idv f)
      (by simp [TransformHierarchy.new])
  obtain ⟨v₁, hv₁⟩ := h₁.top_isSome hne₁
  rcases hp : ps.get ⟨k, hk⟩ with ⟨s, r, t⟩
  have hget : ps[k]? = some (s, r, t) := by
    rw [List.getElem?_eq_getElem hk, ← hp, List.get_eq_getElem]
  have htake : ps.take (k + 1) = ps.take k ++ [(s, r, t)] := by
    rw [List.take_succ, hget]
    rfl
  have hpush := h₁.push_eq_of_top s r t v₁ hv₁
  refine ⟨h₁,
    { matrices := h₁.matrices ++ [v₁ * h₁.order_func s r t],
      order_func := h₁.order_func },
    v₁, hrun₁, hv₁, ?_, ?_⟩
  · rw [htake, runPushes_append_ok (ps.take k) _ _ h₁ hrun₁, runPushes,
      hpush]
    rfl
  · simp only [TransformHierarchy.top, List.getLast?_concat, hf₁,
      TransformHierarchy.new]

/-- Witness for C3 at a concrete input: one push `(2, 3, 4)` on the
stack seeded with `1` and order function `x * y * z`. -/
theorem c3_witness :
    0 < ([((2 : ℕ), (3 : ℕ), (4 : ℕ))]).length ∧
    ∃ h₁ h₂ v₁,
      runPushes (([((2 : ℕ), (3 : ℕ), (4 : ℕ))]).take 0)
        (TransformHierarchy.new 1 (fun x y z => x * y * z)) = .ok h₁ ∧
      h₁.top = some v₁ ∧
      runPushes (([((2 : ℕ), (3 : ℕ), (4 : ℕ))]).take 1)
        (TransformHierarchy.new 1 (fun x y z => x * y * z)) = .ok h₂ ∧
      h₂.top = some (v₁ * (fun x y z => x * y * z)
        (([((2 : ℕ), (3 : ℕ), (4 : ℕ))]).get ⟨0, by decide⟩).1
        (([((2 : ℕ), (3 : ℕ), (4 : ℕ))]).get ⟨0, by decide⟩).2.1
        (([((2 : ℕ), (3 : ℕ), (4 : ℕ))]).get ⟨0, by decide⟩).2.2) :=
  ⟨by decide,
   c3_push_composes 1 (fun x y z => x * y * z) [(2, 3, 4)] 0 (by decide)⟩

/-- **C7.** Calling `pop_one` on a stack containing only the single root
(identity) element always fails with the invariant-violation panic; the
failed call returns no modified stack (the model's `pop_one` is pure and
its error branch carries no state, matching the Rust `panic!` that
unwinds before any mutation). -/
theorem c7_pop_root_fails {T : Type} (h : TransformHierarchy T)
    (hlen : h.matrices.length = 1) :
    h.pop_one = .error .popPastRoot := by
  unfold TransformHierarchy.pop_one
  rw [hlen]
  rfl

/-- Witness for C7: the freshly constructed hierarchy of the crate's own
`pop_one_none` test. -/
theorem c7_witness :
    (TransformHierarchy.new (1 : ℕ)
      (fun x y z => x * y * z)).matrices.length = 1 ∧
    (TransformHierarchy.new (1 : ℕ)
      (fun x y z => x * y * z)).pop_one = .error .popPastRoot :=
  ⟨rfl, c7_pop_root_fails _ rfl⟩

/-- **C8.** Under every sequence of `push`, `push_none` and
guard-release operations the stack stays non-empty with the seed
identity at index 0, grows only when a push appends one element, and
shrinks only when a `With` guard release pops exactly one element
(`Without` releases and `push_none` change nothing). -/
theorem c8_stack_invariants {T : Type} [Mul T] (idv : T)
    (f : T → T → T → T) (ops : List (StackOp T)) :
    (∀ h', runOps ops (TransformHierarchy.new idv f) = .ok h' →
        h'.matrices ≠ [] ∧ h'.matrices.head? = some idv) ∧
    (∀ h : TransformHierarchy T,
      (∀ ps pr pt h', applyOp h (.push ps pr pt) = .ok h' →
          ∃ x, h'.matrices = h.matrices ++ [x]) ∧
      (∀ h', applyOp h .releaseWith = .ok h' →
          2 ≤ h.matrices.length ∧ h'.matrices = h.matrices.dropLast) ∧
      applyOp h .pushNone = .ok h ∧
      applyOp h .releaseWithout = .ok h) := by
  constructor
  · exact fun h' hok =>
      runOps_inv ops (TransformHierarchy.new idv f) rfl h' hok
  · intro h
    refine ⟨?_, ?_, rfl, rfl⟩
    · intro ps pr pt h' hok
      unfold applyOp TransformHierarchy.push at hok
      cases hm : h.matrices.getLast? with
      | none => rw [hm] at hok; cases hok
      | some prev =>
          rw [hm] at hok
          cases hok
          exact ⟨_, rfl⟩
    · intro h' hok
      unfold applyOp TransformHierarchy.pop_one at hok
      by_cases hlen : h.matrices.length > 1
      · rw [if_pos hlen] at hok
        cases hm : h.matrices.getLast? with
        | none => rw [hm] at hok; cases hok
        | some v =>
            rw [hm] at hok
            cases hok
            exact ⟨hlen, rfl⟩
      · rw [if_neg hlen] at hok; cases hok

/-- Witness for C8: pushing `(2, 3, 4)` and releasing the `With` guard
returns the stack to the single seed element. -/
theorem c8_witness :
    ([(1 : ℕ)] ≠ [] ∧ ([(1 : ℕ)]).head? = some 1) :=
  (c8_stack_invariants (1 : ℕ) (fun x y z => x * y * z)
      [.push 2 3 4, .releaseWith]).1
    ⟨[1], fun x y z => x * y * z⟩ (by rfl)

/-! ## Claims C9, C10 — registry caching and program binding -/

lemma lookupTid_append_self {S : Type} (l : List (ℕ × S)) (tid : ℕ) (s : S)
    (hnone : lookupTid l tid = none) :
    lookupTid (l ++ [(tid, s)]) tid = some s := by
  induction l with
  | nil => simp [lookupTid]
  | cons kv rest ih =>
      obtain ⟨k, v⟩ := kv
      rw [lookupTid] at hnone
      by_cases hk : k = tid
      · rw [if_pos hk] at hnone; cases hnone
      · rw [if_neg hk] at hnone
        rw [List.cons_append, lookupTid, if_neg hk]
        exact ih hnone

/-- **C9.** Two `ShaderStorage::get` calls for the same shader kind
return the same shader instance and the same camera cache, the
constructor (`or_insert_with` closure) runs at most on the first call
and never on the second, and the second call leaves the registry
untouched. -/
theorem c9_registry_caches {S : Type} (st : ShaderStorage S) (tid : ℕ)
    (mk : Unit → S) :
    (((st.get tid mk).2.1.get tid mk).1.1 = (st.get tid mk).1.1) ∧
    (((st.get tid mk).2.1.get tid mk).1.2 = (st.get tid mk).1.2) ∧
    (((st.get tid mk).2.1.get tid mk).2.1 = (st.get tid mk).2.1) ∧
    (((st.get tid mk).2.1.get tid mk).2.2 = false) := by
  cases hl : lookupTid st.shaders tid with
  | some s => simp [ShaderStorage.get, hl]
  | none =>
      have h₂ := lookupTid_append_self st.shaders tid (mk ()) hl
      simp [ShaderStorage.get, hl, h₂]

/-- **C10.** `use_program` is a no-op when the requested program is
already recorded as current (no `gl::UseProgram` is issued, nothing in
the state changes), and hence idempotent: two consecutive calls with
the same program equal one call. -/
theorem c10_use_program_idempotent (g : GlGraphics) (p : ℕ) :
    (g.current_program = some p → g.use_program p = g) ∧
    (g.use_program p).use_program p = g.use_program p := by
  constructor
  · intro hcur
    unfold GlGraphics.use_program
    rw [hcur]
    simp
  · unfold GlGraphics.use_program
    cases hcur : g.current_program with
    | some q =>
        by_cases hpq : p = q
        · simp [hpq, hcur]
        · simp [hpq, hcur]
    | none => simp

/-- Witness for C10 at a concrete state whose current program is
already `5`. -/
theorem c10_witness :
    ((GlGraphics.new 1 2).use_program 5).use_program 5 =
      (GlGraphics.new 1 2).use_program 5 :=
  (c10_use_program_idempotent ((GlGraphics.new 1 2).use_program 5) 5).1
    (by rfl)

/-! ## Batching lemmas for the colour-fill path -/

lemma tri_list_append_fit (bs : ℕ) (color : Color) (g : GlGraphics)
    (batch : List Vertex)
    (hfit : g.colored.pending.length + batch.length ≤ capacity bs) :
    g.tri_list_append bs color batch =
      .ok { g with colored :=
        { g.colored with
          pending := g.colored.pending ++
            batch.map (fun v => (v, color)) } } := by
  unfold GlGraphics.tri_list_append
  simp only [Colored.offset]
  rw [if_neg (show ¬ (g.colored.pending.length + batch.length > capacity bs)
    from by omega)]
  rw [if_pos hfit]

lemma tri_list_append_over (bs : ℕ) (color : Color) (g : GlGraphics)
    (batch : List Vertex)
    (hover : capacity bs < g.colored.pending.length + batch.length)
    (hb : batch.length ≤ capacity bs) :
    g.tri_list_append bs color batch =
      .ok { g.use_program g.colored.program with colored :=
        { program := g.colored.program,
          pending := batch.map (fun v => (v, color)),
          flushed := g.colored.flushed ++ [g.colored.pending] } } := by
  unfold GlGraphics.tri_list_append
  simp only [Colored.offset]
  rw [if_pos (show g.colored.pending.length + batch.length > capacity bs
    from by omega)]
  have hup : (g.use_program g.colored.program).colored = g.colored := by
    unfold GlGraphics.use_program
    cases g.current_program with
    | some q =>
        by_cases hq : g.colored.program = q
        · simp [hq]
        · simp [hq]
    | none => simp
  rw [hup]
  simp only [Colored.flush, Colored.offset, List.length_nil]
  rw [if_pos (show 0 + batch.length ≤ capacity bs from by omega)]
  simp

lemma tri_list_go_data (bs : ℕ) (color : Color)
    (batches : List (List Vertex)) (g : GlGraphics)
    (hb : ∀ b ∈ batches, b.length ≤ capacity bs)
    (hpend : g.colored.pending.length ≤ capacity bs) :
    ∃ g', g.tri_list_go bs color batches = .ok g' ∧
      g'.colored.flushed.flatten ++ g'.colored.pending =
        g.colored.flushed.flatten ++ g.colored.pending ++
          (batches.flatten.map (fun v => (v, color))) ∧
      g'.colored.pending.length ≤ capacity bs ∧
      g'.colored.program = g.colored.program ∧
      g'.textured = g.textured ∧
      g'.current_draw_state = g.current_draw_state := by
  induction batches generalizing g with
  | nil => exact ⟨g, rfl, by simp, hpend, rfl, rfl, rfl⟩
  | cons batch rest ih =>
      have hblen : batch.length ≤ capacity bs := hb batch (by simp)
      have hrest : ∀ b ∈ rest, b.length ≤ capacity bs :=
        fun b hbmem => hb b (by simp [hbmem])
      by_cases hcase : g.colored.pending.length + batch.length ≤ capacity bs
      · obtain ⟨g', hrun, hjoin, hle, hprog, htex, hds⟩ :=
          ih { g with colored :=
            { g.colored with
              pending := g.colored.pending ++
                batch.map (fun v => (v, color)) } }
            hrest (by simpa using hcase)
        refine ⟨g', ?_, ?_, hle, hprog, htex, hds⟩
        · rw [GlGraphics.tri_list_go, tri_list_append_fit bs color g batch hcase]
          exact hrun
        · rw [hjoin]
          simp
      · obtain ⟨g', hrun, hjoin, hle, hprog, htex, hds⟩ :=
          ih { g.use_program g.colored.program with colored :=
            { program := g.colored.program,
              pending := batch.map (fun v => (v, color)),
              flushed := g.colored.flushed ++ [g.colored.pending] } }
            hrest (by simpa using hblen)
        have hup_tex : (g.use_program g.colored.program).textured =
            g.textured := by
          unfold GlGraphics.use_program
          cases g.current_program with
          | some q =>
              by_cases hq : g.colored.program = q
              · simp [hq]
              · simp [hq]
          | none => simp
        have hup_ds : (g.use_program g.colored.program).current_draw_state =
            g.current_draw_state := by
          unfold GlGraphics.use_program
          cases g.current_program with
          | some q =>
              by_cases hq : g.colored.program = q
              · simp [hq]
              · simp [hq]
          | none => simp
        refine ⟨g', ?_, ?_, hle, by rw [hprog], ?_, ?_⟩
        · rw [GlGraphics.tri_list_go,
            tri_list_append_over bs color g batch (by omega) hblen]
          exact hrun
        · rw [hjoin]
          simp
        · rw [htex]
          exact hup_tex
        · rw [hds]
          exact hup_ds

lemma tri_list_go_count (bs b : ℕ) (color : Color)
    (batches : List (List Vertex)) (g : GlGraphics)
    (hbs : 0 < bs) (hb : 0 < b) (hdvd : b ∣ capacity bs)
    (hsz : ∀ x ∈ batches, x.length = b)
    (hpend : g.colored.pending.length ≤ capacity bs)
    (hdp : b ∣ g.colored.pending.length) :
    ∃ g', g.tri_list_go bs color batches = .ok g' ∧
      g'.colored.pending.length + capacity bs * g'.colored.flushed.length =
        g.colored.pending.length + capacity bs * g.colored.flushed.length +
          batches.flatten.length ∧
      g'.colored.pending.length ≤ capacity bs ∧
      b ∣ g'.colored.pending.length ∧
      ((0 < g.colored.pending.length ∨ batches ≠ []) →
        0 < g'.colored.pending.length) ∧
      g'.colored.program = g.colored.program ∧
      g'.textured = g.textured ∧
      g'.current_draw_state = g.current_draw_state := by
  have hcap : 0 < capacity bs := by
    unfold capacity CHUNKS
    omega
  have hble : b ≤ capacity bs := Nat.le_of_dvd hcap hdvd
  induction batches generalizing g with
  | nil =>
      refine ⟨g, rfl, by simp, hpend, hdp, ?_, rfl, rfl, rfl⟩
      intro hpos
      rcases hpos with hpos | hpos
      · exact hpos
      · exact absurd rfl hpos
  | cons batch rest ih =>
      have hblen : batch.length = b := hsz batch (by simp)
      have hrest : ∀ x ∈ rest, x.length = b :=
        fun x hx => hsz x (by simp [hx])
      by_cases hcase : g.colored.pending.length + batch.length ≤ capacity bs
      · obtain ⟨g', hrun, hsum, hle, hdvd', hpos', hprog, htex, hds⟩ :=
          ih { g with colored :=
            { g.colored with
              pending := g.colored.pending ++
                batch.map (fun v => (v, color)) } }
            hrest (by simpa using hcase)
            (by
              obtain ⟨x, hx⟩ := hdp
              simp only [List.length_append, List.length_map, hblen, hx]
              exact ⟨x + 1, by ring⟩)
        refine ⟨g', ?_, ?_, hle, hdvd', ?_, hprog, htex, hds⟩
        · rw [GlGraphics.tri_list_go, tri_list_append_fit bs color g batch hcase]
          exact hrun
        · simp only [List.flatten_cons, List.length_append,
            List.length_map] at hsum ⊢
          omega
        · intro _
          apply hpos'
          left
          simp only [List.length_append, List.length_map, hblen]
          omega
      · -- the pre-flush case: the pending region is exactly full
        have hpfull : g.colored.pending.length = capacity bs := by
          obtain ⟨x, hx⟩ := hdp
          obtain ⟨y, hy⟩ := hdvd
          rw [hblen] at hcase
          rw [hx] at hcase hpend ⊢
          rw [hy] at hcase hpend ⊢
          have hxy : x = y := by
            have h1 : x ≤ y := Nat.le_of_mul_le_mul_left hpend hb
            by_contra hne
            have h2 : x + 1 ≤ y := by omega
            have h3 : b * (x + 1) ≤ b * y := Nat.mul_le_mul_left b h2
            have h4 : b * (x + 1) = b * x + b := by ring
            omega
          rw [hxy]
        obtain ⟨g', hrun, hsum, hle, hdvd', hpos', hprog, htex, hds⟩ :=
          ih { g.use_program g.colored.program with colored :=
            { program := g.colored.program,
              pending := batch.map (fun v => (v, color)),
              flushed := g.colored.flushed ++ [g.colored.pending] } }
            hrest (by simpa [hblen] using hble)
            (by simp [hblen])
        have hup_tex : (g.use_program g.colored.program).textured =
            g.textured := by
          unfold GlGraphics.use_program
          cases g.current_program with
          | some q =>
              by_cases hq : g.colored.program = q
              · simp [hq]
              · simp [hq]
          | none => simp
        have hup_ds : (g.use_program g.colored.program).current_draw_state =
            g.current_draw_state := by
          unfold GlGraphics.use_program
          cases g.current_program with
          | some q =>
              by_cases hq : g.colored.program = q
              · simp [hq]
              · simp [hq]
          | none => simp
        refine ⟨g', ?_, ?_, hle, hdvd', ?_, by rw [hprog], by rw [htex]; exact hup_tex,
          by rw [hds]; exact hup_ds⟩
        · rw [GlGraphics.tri_list_go,
            tri_list_append_over bs color g batch (by omega) (by omega)]
          exact hrun
        · simp only [List.flatten_cons, List.length_append,
            List.length_map, List.length_singleton, Nat.mul_add,
            Nat.mul_one, hpfull, hblen] at hsum ⊢
          omega
        · intro _
          apply hpos'
          left
          simp only [List.length_map, hblen]
          omega

lemma tri_list_ready (bs : ℕ) (gamma : Color → Color) (ds : DrawState)
    (color : Color) (batches : List (List Vertex)) (g : GlGraphics)
    (ht : g.textured.pending = []) (hds : g.current_draw_state = some ds) :
    g.tri_list bs gamma ds color batches =
      g.tri_list_go bs (gamma color) batches := by
  unfold GlGraphics.tri_list
  simp [Textured.offset, ht, hds]

lemma tri_list_first (bs cp tp : ℕ) (gamma : Color → Color)
    (ds : DrawState) (color : Color) (batches : List (List Vertex)) :
    ((GlGraphics.new cp tp).draw_begin).tri_list bs gamma ds color batches =
      GlGraphics.tri_list_go bs (gamma color) batches
        { colored := Colored.new cp, textured := Textured.new tp,
          current_program := some cp, current_draw_state := some ds,
          binds := [cp] } := by
  rfl

lemma use_program_colored (g : GlGraphics) (p : ℕ) :
    (g.use_program p).colored = g.colored := by
  unfold GlGraphics.use_program
  cases g.current_program with
  | some q =>
      by_cases hq : p = q
      · simp [hq]
      · simp [hq]
  | none => simp

lemma use_program_textured (g : GlGraphics) (p : ℕ) :
    (g.use_program p).textured = g.textured := by
  unfold GlGraphics.use_program
  cases g.current_program with
  | some q =>
      by_cases hq : p = q
      · simp [hq]
      · simp [hq]
  | none => simp

lemma use_program_draw_state (g : GlGraphics) (p : ℕ) :
    (g.use_program p).current_draw_state = g.current_draw_state := by
  unfold GlGraphics.use_program
  cases g.current_program with
  | some q =>
      by_cases hq : p = q
      · simp [hq]
      · simp [hq]
  | none => simp

lemma tri_list_calls_data (bs : ℕ) (gamma : Color → Color) (ds : DrawState)
    (color : Color) (calls : List (List (List Vertex))) (g : GlGraphics)
    (hfit : ∀ call ∈ calls, ∀ b ∈ call, b.length ≤ capacity bs)
    (ht : g.textured.pending = []) (hds : g.current_draw_state = some ds)
    (hpend : g.colored.pending.length ≤ capacity bs) :
    ∃ g', g.tri_list_calls bs gamma ds color calls = .ok g' ∧
      g'.colored.flushed.flatten ++ g'.colored.pending =
        g.colored.flushed.flatten ++ g.colored.pending ++
          ((calls.flatten.flatten).map (fun v => (v, gamma color))) ∧
      g'.colored.pending.length ≤ capacity bs ∧
      g'.colored.program = g.colored.program ∧
      g'.textured = g.textured ∧
      g'.current_draw_state = g.current_draw_state := by
  induction calls generalizing g with
  | nil => exact ⟨g, rfl, by simp, hpend, rfl, rfl, rfl⟩
  | cons call rest ih =>
      obtain ⟨g₁, hrun₁, hjoin₁, hle₁, hprog₁, htex₁, hds₁⟩ :=
        tri_list_go_data bs (gamma color) call g (hfit call (by simp)) hpend
      have hcall : g.tri_list bs gamma ds color call = .ok g₁ := by
        rw [tri_list_ready bs gamma ds color call g ht hds]
        exact hrun₁
      obtain ⟨g', hrun', hjoin', hle', hprog', htex', hds'⟩ :=
        ih g₁ (fun c hc => hfit c (by simp [hc]))
          (by rw [htex₁]; exact ht) (by rw [hds₁]; exact hds) hle₁
      refine ⟨g', ?_, ?_, hle', by rw [hprog', hprog₁],
        by rw [htex', htex₁], by rw [hds', hds₁]⟩
      · rw [GlGraphics.tri_list_calls, hcall]
        exact hrun'
      · rw [hjoin', hjoin₁]
        simp [List.append_assoc]

lemma tri_list_calls_count (bs b : ℕ) (gamma : Color → Color)
    (ds : DrawState) (color : Color) (calls : List (List (List Vertex)))
    (g : GlGraphics)
    (hbs : 0 < bs) (hb : 0 < b) (hdvd : b ∣ capacity bs)
    (hsz : ∀ call ∈ calls, ∀ x ∈ call, x.length = b)
    (ht : g.textured.pending = []) (hds : g.current_draw_state = some ds)
    (hpend : g.colored.pending.length ≤ capacity bs)
    (hdp : b ∣ g.colored.pending.length) :
    ∃ g', g.tri_list_calls bs gamma ds color calls = .ok g' ∧
      g'.colored.pending.length + capacity bs * g'.colored.flushed.length =
        g.colored.pending.length + capacity bs * g.colored.flushed.length +
          calls.flatten.flatten.length ∧
      g'.colored.pending.length ≤ capacity bs ∧
      ((0 < g.colored.pending.length ∨ calls.flatten ≠ []) →
        0 < g'.colored.pending.length) ∧
      g'.colored.program = g.colored.program ∧
      g'.textured = g.textured ∧
      g'.current_draw_state = g.current_draw_state := by
  induction calls generalizing g with
  | nil =>
      refine ⟨g, rfl, by simp, hpend, ?_, rfl, rfl, rfl⟩
      intro hp
      rcases hp with hp | hp
      · exact hp
      · simp at hp
  | cons call rest ih =>
      obtain ⟨g₁, hrun₁, hsum₁, hle₁, hdvd₁, hpos₁, hprog₁, htex₁, hds₁⟩ :=
        tri_list_go_count bs b (gamma color) call g hbs hb hdvd
          (hsz call (by simp)) hpend hdp
      have hcall : g.tri_list bs gamma ds color call = .ok g₁ := by
        rw [tri_list_ready bs gamma ds color call g ht hds]
        exact hrun₁
      obtain ⟨g', hrun', hsum', hle', hpos', hprog', htex', hds'⟩ :=
        ih g₁ (fun c hc => hsz c (by simp [hc]))
          (by rw [htex₁]; exact ht) (by rw [hds₁]; exact hds) hle₁ hdvd₁
      refine ⟨g', ?_, ?_, hle', ?_, by rw [hprog', hprog₁],
        by rw [htex', htex₁], by rw [hds', hds₁]⟩
      · rw [GlGraphics.tri_list_calls, hcall]
        exact hrun'
      · simp only [List.flatten_cons, List.flatten_append,
          List.length_append] at hsum' hsum₁ ⊢
        omega
      · intro hp
        rcases hp with hp | hp
        · exact hpos' (Or.inl (hpos₁ (Or.inl hp)))
        · by_cases hc : call = []
          · apply hpos'
            right
            simpa [hc] using hp
          · exact hpos' (Or.inl (hpos₁ (Or.inr hc)))

lemma draw_end_nil (g : GlGraphics) (hc : g.colored.pending = [])
    (ht : g.textured.pending = []) : g.draw_end = g := by
  unfold GlGraphics.draw_end
  simp [Colored.offset, Textured.offset, hc, ht]

lemma draw_end_flushes (g : GlGraphics) (hc : g.colored.pending ≠ [])
    (ht : g.textured.pending = []) :
    g.draw_end =
      { g.use_program g.colored.program with colored := g.colored.flush } := by
  unfold GlGraphics.draw_end
  rw [if_pos (show g.colored.offset > 0 from by
    simp only [Colored.offset]
    exact List.length_pos.mpr hc)]
  rw [if_neg (show ¬ (({ g.use_program g.colored.program with
      colored := g.colored.flush } : GlGraphics).textured.offset > 0) from by
    simp only [Textured.offset, use_program_textured, ht]
    simp)]
  simp only [use_program_colored]

lemma tri_list_calls_cons_fresh (bs cp tp : ℕ) (gamma : Color → Color)
    (ds : DrawState) (color : Color) (call : List (List Vertex))
    (rest : List (List (List Vertex))) :
    ((GlGraphics.new cp tp).draw_begin).tri_list_calls bs gamma ds color
        (call :: rest) =
      GlGraphics.tri_list_calls bs gamma ds color (call :: rest)
        { colored := Colored.new cp, textured := Textured.new tp,
          current_program := some cp, current_draw_state := some ds,
          binds := [cp] } := by
  rw [GlGraphics.tri_list_calls, GlGraphics.tri_list_calls,
    tri_list_first bs cp tp gamma ds color call,
    tri_list_ready bs gamma ds color call _ rfl rfl]

lemma flush_ceil (cap p f N : ℕ) (hcap : 0 < cap) (hple : p ≤ cap)
    (hsum : p + cap * f = N) (hpos : 0 < N → 0 < p) :
    f + (if 0 < p then 1 else 0) = (N + cap - 1) / cap := by
  by_cases hN : 0 < N
  · have hp := hpos hN
    rw [if_pos hp]
    have h1 : N + cap - 1 = cap * f + (p + cap - 1) := by omega
    rw [h1, Nat.mul_add_div hcap]
    have h2 : (p + cap - 1) / cap = 1 :=
      Nat.div_eq_of_lt_le (by omega) (by omega)
    omega
  · have hf0 : f = 0 := by
      by_contra hf
      have h5 : cap * 1 ≤ cap * f := Nat.mul_le_mul_left cap (by omega)
      omega
    rw [if_neg (by omega), hf0]
    have h6 : N = 0 := by omega
    rw [h6]
    rw [Nat.div_eq_of_lt (by omega)]

/-! ## Claims C1, C2, C4 — colour-fill batching and overflow -/

lemma triListSession_data (bs cp tp : ℕ) (gamma : Color → Color)
    (ds : DrawState) (color : Color) (calls : List (List (List Vertex)))
    (hfit : ∀ call ∈ calls, ∀ b ∈ call, b.length ≤ capacity bs) :
    ∃ g', triListSession bs gamma ds color calls (GlGraphics.new cp tp) =
        .ok g' ∧
      g'.colored.flushed.flatten =
        (calls.flatten.flatten).map (fun v => (v, gamma color)) := by
  cases calls with
  | nil =>
      refine ⟨GlGraphics.new cp tp, rfl, ?_⟩
      simp [GlGraphics.new, Colored.new]
  | cons call rest =>
      obtain ⟨g', hrun, hjoin, hle, hprog, htex, hds⟩ :=
        tri_list_calls_data bs gamma ds color (call :: rest)
          { colored := Colored.new cp, textured := Textured.new tp,
            current_program := some cp, current_draw_state := some ds,
            binds := [cp] }
          hfit rfl rfl (by simp [Colored.new])
      simp only [Colored.new] at hjoin
      have hjoin' : g'.colored.flushed.flatten ++ g'.colored.pending =
          ((call :: rest).flatten.flatten).map (fun v => (v, gamma color)) := by
        rw [hjoin]
        simp
      have hsess : ((GlGraphics.new cp tp).draw_begin).tri_list_calls bs
          gamma ds color (call :: rest) = .ok g' := by
        rw [tri_list_calls_cons_fresh]
        exact hrun
      have htexnil : g'.textured.pending = [] := by rw [htex]; rfl
      have hfull : triListSession bs gamma ds color (call :: rest)
          (GlGraphics.new cp tp) = .ok g'.draw_end := by
        unfold triListSession
        rw [hsess]
      by_cases hpend : g'.colored.pending = []
      · refine ⟨g', ?_, ?_⟩
        · rw [hfull, draw_end_nil g' hpend htexnil]
        · rw [← hjoin', hpend]
          simp
      · refine ⟨g'.draw_end, hfull, ?_⟩
        rw [draw_end_flushes g' hpend htexnil]
        simp only [Colored.flush]
        rw [List.flatten_append]
        simpa using hjoin'

set_option maxRecDepth 10000 in
/-- **C2.** Across a `draw_begin` / `tri_list`-calls / `draw_end` frame
with one draw state and one colour, the concatenation of the position
data submitted by all `Colored` flushes equals the concatenation of the
input vertex batches in call order, and every flushed vertex carries the
linear-converted call colour.  (The batches are required to fit the
total buffer capacity individually; a larger batch panics on the slice
write — claim C4.) -/
theorem c2_flushed_data (bs cp tp : ℕ) (gamma : Color → Color)
    (ds : DrawState) (color : Color) (calls : List (List (List Vertex)))
    (hfit : ∀ call ∈ calls, ∀ b ∈ call, b.length ≤ capacity bs) :
    ∃ g', triListSession bs gamma ds color calls (GlGraphics.new cp tp) =
        .ok g' ∧
      g'.colored.flushed.flatten =
        (calls.flatten.flatten).map (fun v => (v, gamma color)) :=
  triListSession_data bs cp tp gamma ds color calls hfit

/-- Witness for C2: two calls of one 60-vertex batch each at
`BUFFER_SIZE = 1` (capacity 100). -/
theorem c2_witness :
    (∀ call ∈ [[List.replicate 60 7], [List.replicate 60 8]],
      ∀ b ∈ call, List.length b ≤ capacity 1) ∧
    ∃ g', triListSession 1 (fun c => c + 1) 5 9
        [[List.replicate 60 7], [List.replicate 60 8]]
        (GlGraphics.new 1 2) = .ok g' ∧
      g'.colored.flushed.flatten =
        (([[List.replicate 60 7], [List.replicate 60 8]] :
          List (List (List Vertex))).flatten.flatten).map
            (fun v => (v, (fun (c : Color) => c + 1) 9)) :=
  ⟨by decide,
   c2_flushed_data 1 1 2 (fun c => c + 1) 5 9
     [[List.replicate 60 7], [List.replicate 60 8]] (by decide)⟩

/-- **C1 (amended).** Across such a frame in which the closure batches
share one size `b` that divides the capacity, exactly
`ceil(N / capacity)` flushes of the `Colored` shader occur (counting the
final `draw_end` flush), where `N` is the total vertex count.  For
mixed batch sizes the flush count can exceed `ceil(N / capacity)`
(see the counterexample). -/
theorem c1_flush_count (bs b cp tp : ℕ) (gamma : Color → Color)
    (ds : DrawState) (color : Color) (calls : List (List (List Vertex)))
    (hbs : 0 < bs) (hb : 0 < b) (hdvd : b ∣ capacity bs)
    (hsz : ∀ call ∈ calls, ∀ x ∈ call, x.length = b) :
    ∃ g', triListSession bs gamma ds color calls (GlGraphics.new cp tp) =
        .ok g' ∧
      g'.colored.flushed.length =
        (calls.flatten.flatten.length + capacity bs - 1) / capacity bs := by
  have hcap : 0 < capacity bs := by
    unfold capacity CHUNKS
    omega
  cases calls with
  | nil =>
      refine ⟨GlGraphics.new cp tp, rfl, ?_⟩
      simp only [GlGraphics.new, Colored.new, List.length_nil,
        List.flatten_nil]
      rw [Nat.div_eq_of_lt (by omega)]
  | cons call rest =>
      obtain ⟨g', hrun, hsum, hle, hpos, hprog, htex, hds⟩ :=
        tri_list_calls_count bs b gamma ds color (call :: rest)
          { colored := Colored.new cp, textured := Textured.new tp,
            current_program := some cp, current_draw_state := some ds,
            binds := [cp] }
          hbs hb hdvd hsz rfl rfl (by simp [Colored.new])
          (by simp [Colored.new])
      simp only [Colored.new, List.length_nil, Nat.mul_zero, Nat.add_zero,
        Nat.zero_add] at hsum hpos
      have hsess : ((GlGraphics.new cp tp).draw_begin).tri_list_calls bs
          gamma ds color (call :: rest) = .ok g' := by
        rw [tri_list_calls_cons_fresh]
        exact hrun
      have htexnil : g'.textured.pending = [] := by rw [htex]; rfl
      have hfull : triListSession bs gamma ds color (call :: rest)
          (GlGraphics.new cp tp) = .ok g'.draw_end := by
        unfold triListSession
        rw [hsess]
      have hposN : 0 < (call :: rest).flatten.flatten.length →
          0 < g'.colored.pending.length := by
        intro hN
        apply hpos
        right
        intro hfl
        rw [hfl] at hN
        simp at hN
      have hend := flush_ceil (capacity bs) g'.colored.pending.length
        g'.colored.flushed.length (call :: rest).flatten.flatten.length
        hcap hle hsum hposN
      by_cases hpend : g'.colored.pending = []
      · refine ⟨g', ?_, ?_⟩
        · rw [hfull, draw_end_nil g' hpend htexnil]
        · rw [← hend, if_neg (by simp [hpend])]
          omega
      · refine ⟨g'.draw_end, hfull, ?_⟩
        rw [draw_end_flushes g' hpend htexnil]
        simp only [Colored.flush, List.length_append,
          List.length_singleton]
        rw [← hend, if_pos (List.length_pos.mpr hpend)]

set_option maxRecDepth 10000 in
/-- Witness for C1: four calls of one 50-vertex batch each at
`BUFFER_SIZE = 1` (capacity 100, `N = 200`, two flushes). -/
theorem c1_witness :
    (0 < 1 ∧ 0 < 50 ∧ 50 ∣ capacity 1 ∧
      ∀ call ∈ [[List.replicate 50 1], [List.replicate 50 2],
        [List.replicate 50 3], [List.replicate 50 4]],
        ∀ x ∈ call, List.length x = 50) ∧
    ∃ g', triListSession 1 (fun c => c) 5 9
        [[List.replicate 50 1], [List.replicate 50 2],
          [List.replicate 50 3], [List.replicate 50 4]]
        (GlGraphics.new 1 2) = .ok g' ∧
      g'.colored.flushed.length =
        (([[List.replicate 50 1], [List.replicate 50 2],
            [List.replicate 50 3], [List.replicate 50 4]] :
          List (List (List Vertex))).flatten.flatten.length +
          capacity 1 - 1) / capacity 1 :=
  ⟨⟨by decide, by decide, by decide, by decide⟩,
   c1_flush_count 1 50 1 2 (fun c => c) 5 9
     [[List.replicate 50 1], [List.replicate 50 2],
       [List.replicate 50 3], [List.replicate 50 4]]
     (by decide) (by decide) (by decide) (by decide)⟩

set_option maxRecDepth 10000 in
/-- Counterexample to C1 as stated: three 60-vertex batches at capacity
100 (`BUFFER_SIZE = 1`) supply `N = 180` vertices but produce 3 flushes,
not `ceil(180 / 100) = 2` — the early flush submits a partially full
buffer whenever a batch straddles the capacity boundary. -/
theorem c1_counterexample :
    okB (triListSession 1 (fun c => c) 0 0
      [[List.replicate 60 0, List.replicate 60 0, List.replicate 60 0]]
      (GlGraphics.new 1 2)) = true ∧
    coloredFlushCountOf (triListSession 1 (fun c => c) 0 0
      [[List.replicate 60 0, List.replicate 60 0, List.replicate 60 0]]
      (GlGraphics.new 1 2)) = 3 ∧
    (([[List.replicate (60 : ℕ) 0, List.replicate 60 0,
        List.replicate 60 0]] :
      List (List (List Vertex))).flatten.flatten.length + capacity 1 - 1) /
      capacity 1 = 2 :=
  ⟨by decide, by decide, by decide⟩

/-! ## Custom-shader channel-validation lemmas -/

lemma lenCheck_iff {α : Type} (o : Option (List α)) (items : ℕ) :
    lenCheck o items = true ↔ ∀ src, o = some src → src.length = items := by
  rcases o with _ | src <;> simp [lenCheck]

lemma flagCheck_iff {α : Type} (o : Option α) (b : Bool) :
    flagCheck o b = true ↔ ∀ x, o = some x → b = true := by
  rcases o with _ | x <;> simp [flagCheck]

lemma suppliedOk_iff (sh : CustomShader) (items : ℕ)
    (indices : Option (List ℕ)) (texture : Option (ℕ × List UVCoord))
    (colour : Option (List Color)) (normals : Option (List Normal)) :
    suppliedOk sh items indices texture colour normals = true ↔
      ((sh.colour.isSome = colour.isSome ∧
          ∀ src, colour = some src → src.length = items) ∧
       (texture.isSome = sh.has_texture ∧
          ∀ tid src, texture = some (tid, src) → src.length = items) ∧
       (sh.normal.isSome = normals.isSome ∧
          ∀ src, normals = some src → src.length = items) ∧
       (∀ src, indices = some src → sh.indexBuf.isSome = true)) := by
  unfold suppliedOk
  rcases texture with _ | ⟨tid, tsrc⟩ <;>
    simp [Bool.and_eq_true, beq_iff_eq, lenCheck_iff, flagCheck_iff,
      and_assoc]

lemma colour_step_ok (gamma : Color → Color) (items : ℕ)
    (colour : Option (List Color)) (sh : CustomShader)
    (hcap : sh.offset + items ≤ sh.cap)
    (hpres : sh.colour.isSome = colour.isSome)
    (hlen : ∀ src, colour = some src → src.length = items) :
    ∃ sh', colour_step gamma items colour sh = .ok sh' ∧
      sh'.pending = sh.pending ∧ sh'.cap = sh.cap ∧ sh'.uv = sh.uv ∧
      sh'.has_texture = sh.has_texture ∧ sh'.texture_id = sh.texture_id ∧
      sh'.normal = sh.normal ∧ sh'.indexBuf = sh.indexBuf := by
  rcases hsc : sh.colour with _ | buf
  · rcases colour with _ | src
    · exact ⟨sh, by rw [colour_step.eq_def, hsc], rfl, rfl, rfl,
        rfl, rfl, rfl, rfl⟩
    · rw [hsc] at hpres
      simp at hpres
  · rcases colour with _ | src
    · rw [hsc] at hpres
      simp at hpres
    · have hl := hlen src rfl
      refine ⟨{ sh with colour := some (buf ++ src.map gamma) }, ?_,
        rfl, rfl, rfl, rfl, rfl, rfl, rfl⟩
      rw [colour_step.eq_def, hsc]
      simp [hl, hcap]

lemma colour_step_usage (gamma : Color → Color) (items : ℕ)
    (colour : Option (List Color)) (sh : CustomShader)
    (hbad : ¬ (sh.colour.isSome = colour.isSome ∧
      ∀ src, colour = some src → src.length = items)) :
    colour_step gamma items colour sh = .error .usageViolation := by
  rcases hsc : sh.colour with _ | buf
  · rcases colour with _ | src
    · exact absurd ⟨by rw [hsc], by intro src h; cases h⟩ hbad
    · rw [colour_step.eq_def, hsc]
  · rcases colour with _ | src
    · rw [colour_step.eq_def, hsc]
    · have hl : ¬ src.length = items := by
        intro hl
        refine hbad ⟨by rw [hsc]; rfl, ?_⟩
        intro src' h
        cases h
        exact hl
      rw [colour_step.eq_def, hsc]
      simp [hl]

lemma uv_step_ok (items : ℕ) (texture : Option (ℕ × List UVCoord))
    (sh : CustomShader)
    (hcap : sh.offset + items ≤ sh.cap)
    (hwf : sh.uv.isSome = sh.has_texture)
    (hpres : texture.isSome = sh.has_texture)
    (hlen : ∀ tid src, texture = some (tid, src) → src.length = items) :
    ∃ sh', uv_step items texture sh = .ok sh' ∧
      sh'.pending = sh.pending ∧ sh'.cap = sh.cap ∧ sh'.colour = sh.colour ∧
      sh'.has_texture = sh.has_texture ∧ sh'.texture_id = sh.texture_id ∧
      sh'.normal = sh.normal ∧ sh'.indexBuf = sh.indexBuf := by
  rcases texture with _ | ⟨tid, src⟩
  · simp only [Option.isSome_none] at hpres
    rcases hu : sh.uv with _ | ubuf
    · refine ⟨sh, ?_, rfl, rfl, rfl, rfl, rfl, rfl, rfl⟩
      rw [uv_step.eq_def, hu, ← hpres]
    · rw [hu, ← hpres] at hwf
      simp at hwf
  · simp only [Option.isSome_some] at hpres
    rcases hu : sh.uv with _ | ubuf
    · rw [hu, ← hpres] at hwf
      simp at hwf
    · have hl := hlen tid src rfl
      refine ⟨{ sh with uv := some (ubuf ++ src) }, ?_, rfl, rfl, rfl,
        rfl, rfl, rfl, rfl⟩
      rw [uv_step.eq_def, hu, ← hpres]
      simp [hl, hcap]

lemma uv_step_usage (items : ℕ) (texture : Option (ℕ × List UVCoord))
    (sh : CustomShader)
    (hwf : sh.uv.isSome = sh.has_texture)
    (hbad : ¬ (texture.isSome = sh.has_texture ∧
      ∀ tid src, texture = some (tid, src) → src.length = items)) :
    uv_step items texture sh = .error .usageViolation := by
  rcases texture with _ | ⟨tid, src⟩
  · have htex : sh.has_texture = true := by
      cases htex : sh.has_texture with
      | false =>
          exact absurd ⟨by rw [htex]; rfl, by intro tid src h; cases h⟩ hbad
      | true => rfl
    rcases hu : sh.uv with _ | ubuf
    · rw [hu, htex] at hwf
      simp at hwf
    · rw [uv_step.eq_def, hu, htex]
  · cases htex : sh.has_texture with
    | false =>
        rcases hu : sh.uv with _ | ubuf
        · rw [uv_step.eq_def, hu, htex]
        · rw [hu, htex] at hwf
          simp at hwf
    | true =>
        have hl : ¬ src.length = items := by
          intro hl
          refine hbad ⟨by rw [htex]; rfl, ?_⟩
          intro tid' src' h
          cases h
          exact hl
        rcases hu : sh.uv with _ | ubuf
        · rw [hu, htex] at hwf
          simp at hwf
        · rw [uv_step.eq_def, hu, htex]
          simp [hl]

lemma texture_id_step_ok (texture : Option (ℕ × List UVCoord))
    (sh : CustomShader)
    (hwf : sh.texture_id.isSome = sh.has_texture)
    (hpres : texture.isSome = sh.has_texture) :
    ∃ sh', texture_id_step texture sh = .ok sh' ∧
      sh'.pending = sh.pending ∧ sh'.cap = sh.cap ∧ sh'.colour = sh.colour ∧
      sh'.uv = sh.uv ∧ sh'.has_texture = sh.has_texture ∧
      sh'.normal = sh.normal ∧ sh'.indexBuf = sh.indexBuf := by
  rcases texture with _ | ⟨tid, src⟩
  · simp only [Option.isSome_none] at hpres
    rcases hti : sh.texture_id with _ | t
    · exact ⟨sh, by rw [texture_id_step.eq_def, hti], rfl, rfl, rfl, rfl,
        rfl, rfl, rfl⟩
    · rw [hti, ← hpres] at hwf
      simp at hwf
  · simp only [Option.isSome_some] at hpres
    rcases hti : sh.texture_id with _ | t
    · rw [hti, ← hpres] at hwf
      simp at hwf
    · exact ⟨{ sh with texture_id := some tid },
        by rw [texture_id_step.eq_def, hti], rfl, rfl, rfl, rfl, rfl,
        rfl, rfl⟩

lemma normal_step_ok (items : ℕ) (normals : Option (List Normal))
    (sh : CustomShader)
    (hcap : sh.offset + items ≤ sh.cap)
    (hpres : sh.normal.isSome = normals.isSome)
    (hlen : ∀ src, normals = some src → src.length = items) :
    ∃ sh', normal_step items normals sh = .ok sh' ∧
      sh'.pending = sh.pending ∧ sh'.cap = sh.cap ∧ sh'.colour = sh.colour ∧
      sh'.uv = sh.uv ∧ sh'.has_texture = sh.has_texture ∧
      sh'.texture_id = sh.texture_id ∧ sh'.indexBuf = sh.indexBuf := by
  rcases hsn : sh.normal with _ | nbuf
  · rcases normals with _ | src
    · exact ⟨sh, by rw [normal_step.eq_def, hsn], rfl, rfl, rfl, rfl, rfl,
        rfl, rfl⟩
    · rw [hsn] at hpres
      simp at hpres
  · rcases normals with _ | src
    · rw [hsn] at hpres
      simp at hpres
    · have hl := hlen src rfl
      refine ⟨{ sh with normal := some (nbuf ++ src) }, ?_, rfl, rfl, rfl,
        rfl, rfl, rfl, rfl⟩
      rw [normal_step.eq_def, hsn]
      simp [hl, hcap]

lemma normal_step_usage (items : ℕ) (normals : Option (List Normal))
    (sh : CustomShader)
    (hbad : ¬ (sh.normal.isSome = normals.isSome ∧
      ∀ src, normals = some src → src.length = items)) :
    normal_step items normals sh = .error .usageViolation := by
  rcases hsn : sh.normal with _ | nbuf
  · rcases normals with _ | src
    · exact absurd ⟨by rw [hsn], by intro src h; cases h⟩ hbad
    · rw [normal_step.eq_def, hsn]
  · rcases normals with _ | src
    · rw [normal_step.eq_def, hsn]
    · have hl : ¬ src.length = items := by
        intro hl
        refine hbad ⟨by rw [hsn]; rfl, ?_⟩
        intro src' h
        cases h
        exact hl
      rw [normal_step.eq_def, hsn]
      simp [hl]

lemma index_step_ok (indices : Option (List ℕ)) (sh : CustomShader)
    (hpres : ∀ src, indices = some src → sh.indexBuf.isSome = true) :
    ∃ sh', index_step indices sh = .ok sh' ∧
      sh'.pending = sh.pending ∧ sh'.cap = sh.cap ∧ sh'.colour = sh.colour ∧
      sh'.uv = sh.uv ∧ sh'.has_texture = sh.has_texture ∧
      sh'.texture_id = sh.texture_id ∧ sh'.normal = sh.normal := by
  rcases indices with _ | src
  · rcases hsi : sh.indexBuf with _ | buf
    · exact ⟨sh, by rw [index_step.eq_def, hsi], rfl, rfl, rfl, rfl, rfl,
        rfl, rfl⟩
    · exact ⟨sh, by rw [index_step.eq_def, hsi], rfl, rfl, rfl, rfl, rfl,
        rfl, rfl⟩
  · rcases hsi : sh.indexBuf with _ | buf
    · have := hpres src rfl
      rw [hsi] at this
      simp at this
    · exact ⟨{ sh with indexBuf := some (buf ++ src) },
        by rw [index_step.eq_def, hsi], rfl, rfl, rfl, rfl, rfl, rfl, rfl⟩

lemma index_step_usage (indices : Option (List ℕ)) (sh : CustomShader)
    (hbad : ¬ ∀ src, indices = some src → sh.indexBuf.isSome = true) :
    index_step indices sh = .error .usageViolation := by
  rcases indices with _ | src
  · exact absurd (by intro src h; cases h) hbad
  · rcases hsi : sh.indexBuf with _ | buf
    · rw [index_step.eq_def, hsi]
    · exact absurd (by
        intro src' h
        cases h
        rw [hsi]
        rfl) hbad

lemma pos_step_ok (vertices : List Vertex) (sh : CustomShader)
    (hcap : sh.offset + vertices.length ≤ sh.cap) :
    pos_step vertices sh = .ok { sh with pending := sh.pending ++ vertices } := by
  unfold pos_step
  rw [if_pos hcap]

lemma shader_draw_rest_ok (gamma : Color → Color) (sh : CustomShader)
    (vertices : List Vertex) (indices : Option (List ℕ))
    (texture : Option (ℕ × List UVCoord)) (colour : Option (List Color))
    (normals : Option (List Normal)) (g : GlGraphics)
    (hwf_uv : sh.uv.isSome = sh.has_texture)
    (hwf_tid : sh.texture_id.isSome = sh.has_texture)
    (hcap : sh.offset + vertices.length ≤ sh.cap)
    (hsup : suppliedOk sh vertices.length indices texture colour normals =
      true) :
    ∃ p, shader_draw_rest gamma sh vertices indices texture colour normals
      g = .ok p := by
  rw [suppliedOk_iff] at hsup
  obtain ⟨⟨hc1, hc2⟩, ⟨ht1, ht2⟩, ⟨hn1, hn2⟩, hi1⟩ := hsup
  obtain ⟨sh₁, e1, p1, c1, u1, x1, d1, n1, i1⟩ :=
    colour_step_ok gamma vertices.length colour sh hcap hc1 hc2
  have ho1 : sh₁.offset = sh.offset := by
    unfold CustomShader.offset
    rw [p1]
  obtain ⟨sh₂, e2, p2, c2, col2, x2, d2, n2, i2⟩ :=
    uv_step_ok vertices.length texture sh₁
      (by rw [ho1, c1]; exact hcap)
      (by rw [u1, x1]; exact hwf_uv)
      (by rw [x1]; exact ht1) ht2
  have ho2 : sh₂.offset = sh.offset := by
    unfold CustomShader.offset
    rw [p2]
    exact ho1
  obtain ⟨sh₃, e3, p3, c3, col3, uv3, x3, n3, i3⟩ :=
    texture_id_step_ok texture sh₂
      (by rw [d2, x2, x1, d1]; exact hwf_tid)
      (by rw [x2, x1]; exact ht1)
  have ho3 : sh₃.offset = sh.offset := by
    unfold CustomShader.offset
    rw [p3]
    exact ho2
  obtain ⟨sh₄, e4, p4, c4, col4, uv4, x4, d4, i4⟩ :=
    normal_step_ok vertices.length normals sh₃
      (by rw [ho3, c3, c2, c1]; exact hcap)
      (by rw [n3, n2, n1]; exact hn1) hn2
  have ho4 : sh₄.offset = sh.offset := by
    unfold CustomShader.offset
    rw [p4]
    exact ho3
  obtain ⟨sh₅, e5, p5, c5, col5, uv5, x5, d5, n5⟩ :=
    index_step_ok indices sh₄
      (by
        intro src h
        rw [i4, i3, i2, i1]
        exact hi1 src h)
  have ho5 : sh₅.offset = sh.offset := by
    unfold CustomShader.offset
    rw [p5]
    exact ho4
  have e6 := pos_step_ok vertices sh₅
    (by rw [ho5, c5, c4, c3, c2, c1]; exact hcap)
  refine ⟨(({ sh₅ with pending := sh₅.pending ++ vertices } :
    CustomShader).flush, g.clear_program), ?_⟩
  simp only [shader_draw_rest, e1, e2, e3, e4, e5, e6]

lemma shader_draw_rest_usage (gamma : Color → Color) (sh : CustomShader)
    (vertices : List Vertex) (indices : Option (List ℕ))
    (texture : Option (ℕ × List UVCoord)) (colour : Option (List Color))
    (normals : Option (List Normal)) (g : GlGraphics)
    (hwf_uv : sh.uv.isSome = sh.has_texture)
    (hwf_tid : sh.texture_id.isSome = sh.has_texture)
    (hcap : sh.offset + vertices.length ≤ sh.cap)
    (hsup : suppliedOk sh vertices.length indices texture colour normals =
      false) :
    shader_draw_rest gamma sh vertices indices texture colour normals g =
      .error .usageViolation := by
  have hsup' : ¬ ((sh.colour.isSome = colour.isSome ∧
      ∀ src, colour = some src → src.length = vertices.length) ∧
    (texture.isSome = sh.has_texture ∧
      ∀ tid src, texture = some (tid, src) → src.length = vertices.length) ∧
    (sh.normal.isSome = normals.isSome ∧
      ∀ src, normals = some src → src.length = vertices.length) ∧
    (∀ src, indices = some src → sh.indexBuf.isSome = true)) := by
    rw [← suppliedOk_iff sh vertices.length indices texture colour normals]
    simp [hsup]
  by_cases hA : (sh.colour.isSome = colour.isSome ∧
      ∀ src, colour = some src → src.length = vertices.length)
  · obtain ⟨sh₁, e1, p1, c1, u1, x1, d1, n1, i1⟩ :=
      colour_step_ok gamma vertices.length colour sh hcap hA.1 hA.2
    have ho1 : sh₁.offset = sh.offset := by
      unfold CustomShader.offset
      rw [p1]
    by_cases hB : (texture.isSome = sh.has_texture ∧
        ∀ tid src, texture = some (tid, src) → src.length = vertices.length)
    · obtain ⟨sh₂, e2, p2, c2, col2, x2, d2, n2, i2⟩ :=
        uv_step_ok vertices.length texture sh₁
          (by rw [ho1, c1]; exact hcap)
          (by rw [u1, x1]; exact hwf_uv)
          (by rw [x1]; exact hB.1) hB.2
      obtain ⟨sh₃, e3, p3, c3, col3, uv3, x3, n3, i3⟩ :=
        texture_id_step_ok texture sh₂
          (by rw [d2, x2, x1, d1]; exact hwf_tid)
          (by rw [x2, x1]; exact hB.1)
      have ho3 : sh₃.offset = sh.offset := by
        unfold CustomShader.offset
        rw [p3, p2]
        exact ho1
      by_cases hC : (sh.normal.isSome = normals.isSome ∧
          ∀ src, normals = some src → src.length = vertices.length)
      · obtain ⟨sh₄, e4, p4, c4, col4, uv4, x4, d4, i4⟩ :=
          normal_step_ok vertices.length normals sh₃
            (by rw [ho3, c3, c2, c1]; exact hcap)
            (by rw [n3, n2, n1]; exact hC.1) hC.2
        by_cases hD : (∀ src, indices = some src →
            sh.indexBuf.isSome = true)
        · exact absurd ⟨hA, hB, hC, hD⟩ hsup'
        · have ei := index_step_usage indices sh₄
            (by
              intro hall
              apply hD
              intro src h
              rw [← i1, ← i2, ← i3, ← i4]
              exact hall src h)
          simp only [shader_draw_rest, e1, e2, e3, e4, ei]
      · have en := normal_step_usage vertices.length normals sh₃
          (by rw [n3, n2, n1]; exact hC)
        simp only [shader_draw_rest, e1, e2, e3, en]
    · have eu := uv_step_usage vertices.length texture sh₁
        (by rw [u1, x1]; exact hwf_uv)
        (by rw [x1]; exact hB)
      simp only [shader_draw_rest, e1, eu]
  · have ec := colour_step_usage gamma vertices.length colour sh hA
    simp only [shader_draw_rest, ec]

lemma flush_offset (sh : CustomShader) : sh.flush.offset = 0 := rfl

lemma flush_uv_isSome (sh : CustomShader) :
    sh.flush.uv.isSome = sh.uv.isSome := by
  unfold CustomShader.flush
  rcases sh.uv with _ | u <;> simp

lemma flush_suppliedOk (sh : CustomShader) (items : ℕ)
    (indices : Option (List ℕ)) (texture : Option (ℕ × List UVCoord))
    (colour : Option (List Color)) (normals : Option (List Normal)) :
    suppliedOk sh.flush items indices texture colour normals =
      suppliedOk sh items indices texture colour normals := by
  unfold suppliedOk CustomShader.flush
  rcases sh.colour with _ | c <;> rcases sh.normal with _ | n <;>
    rcases sh.indexBuf with _ | i <;> simp

/-- The outcome of `shader_draw` for a shader whose fill level and batch
each fit the buffer: the prologue (fixed-shader flushes, program bind,
uniform callback, draw-state update, early flush with the capacity
assert) always reaches the channel validation, which succeeds or panics
according to `suppliedOk`. -/
lemma shader_draw_spec (gamma : Color → Color) (sh : CustomShader)
    (ds : DrawState) (vertices : List Vertex) (indices : Option (List ℕ))
    (texture : Option (ℕ × List UVCoord)) (colour : Option (List Color))
    (normals : Option (List Normal)) (g : GlGraphics)
    (hwf_uv : sh.uv.isSome = sh.has_texture)
    (hwf_tid : sh.texture_id.isSome = sh.has_texture)
    (hitems : vertices.length ≤ sh.cap) :
    (suppliedOk sh vertices.length indices texture colour normals = true →
      ∃ p, g.shader_draw gamma sh ds vertices indices texture colour
        normals = .ok p) ∧
    (suppliedOk sh vertices.length indices texture colour normals = false →
      g.shader_draw gamma sh ds vertices indices texture colour normals =
        .error .usageViolation) := by
  simp only [GlGraphics.shader_draw]
  by_cases hover : sh.offset + vertices.length > sh.cap
  · rw [if_pos hover]
    rw [if_pos (show sh.offset + vertices.length >
        (CustomShader.flush sh).offset + vertices.length from by
      rw [flush_offset]
      omega)]
    constructor
    · intro hsup
      exact shader_draw_rest_ok gamma sh.flush vertices indices texture
        colour normals _
        (by rw [flush_uv_isSome]; exact hwf_uv) hwf_tid
        (by rw [flush_offset]; simpa using hitems)
        (by rw [flush_suppliedOk]; exact hsup)
    · intro hsup
      exact shader_draw_rest_usage gamma sh.flush vertices indices texture
        colour normals _
        (by rw [flush_uv_isSome]; exact hwf_uv) hwf_tid
        (by rw [flush_offset]; simpa using hitems)
        (by rw [flush_suppliedOk]; exact hsup)
  · rw [if_neg hover]
    constructor
    · intro hsup
      exact shader_draw_rest_ok gamma sh vertices indices texture colour
        normals _ hwf_uv hwf_tid (by omega) hsup
    · intro hsup
      exact shader_draw_rest_usage gamma sh vertices indices texture
        colour normals _ hwf_uv hwf_tid (by omega) hsup

/-! ## Textured-fill batching lemmas -/

lemma tri_list_uv_append_fit (bs : ℕ) (g : GlGraphics)
    (vs : List Vertex) (uvs : List UVCoord)
    (hfit : g.textured.pending.length + vs.length ≤ capacity bs)
    (hlen : uvs.length = vs.length) :
    g.tri_list_uv_append bs vs uvs =
      .ok { g with textured :=
        { g.textured with pending := g.textured.pending ++ vs.zip uvs } } := by
  unfold GlGraphics.tri_list_uv_append
  simp only [Textured.offset]
  rw [if_neg (show ¬ (g.textured.pending.length + vs.length > capacity bs)
    from by omega)]
  rw [if_pos hfit, if_pos hlen]

lemma tri_list_uv_append_over (bs : ℕ) (g : GlGraphics)
    (vs : List Vertex) (uvs : List UVCoord)
    (hover : capacity bs < g.textured.pending.length + vs.length)
    (hvs : vs.length ≤ capacity bs)
    (hlen : uvs.length = vs.length) :
    g.tri_list_uv_append bs vs uvs =
      .ok { g.use_program g.textured.program with textured :=
        { program := g.textured.program,
          pending := vs.zip uvs,
          last_texture_id := g.textured.last_texture_id,
          last_color := g.textured.last_color,
          flushed := g.textured.flushed ++
            [(g.textured.last_texture_id, g.textured.last_color,
              g.textured.pending)] } } := by
  unfold GlGraphics.tri_list_uv_append
  simp only [Textured.offset]
  rw [if_pos (show g.textured.pending.length + vs.length > capacity bs
    from by omega)]
  rw [use_program_textured]
  simp only [Textured.flush, Textured.offset, List.length_nil]
  rw [if_pos (show 0 + vs.length ≤ capacity bs from by omega),
    if_pos hlen]
  simp

lemma tri_list_uv_go_data (bs : ℕ)
    (batches : List (List Vertex × List UVCoord)) (g : GlGraphics)
    (hlen : ∀ p ∈ batches, (p : List Vertex × List UVCoord).2.length =
      p.1.length)
    (hfit : g.textured.pending.length +
      (batches.map (fun p => p.1.length)).sum ≤ capacity bs) :
    ∃ g', g.tri_list_uv_go bs batches = .ok g' ∧
      g'.textured.pending = g.textured.pending ++
        (batches.map (fun p => p.1.zip p.2)).flatten ∧
      g'.textured.flushed = g.textured.flushed ∧
      g'.textured.last_texture_id = g.textured.last_texture_id ∧
      g'.textured.last_color = g.textured.last_color ∧
      g'.current_draw_state = g.current_draw_state := by
  induction batches generalizing g with
  | nil => exact ⟨g, rfl, by simp, rfl, rfl, rfl, rfl⟩
  | cons p rest ih =>
      obtain ⟨vs, uvs⟩ := p
      have hv : uvs.length = vs.length := hlen (vs, uvs) (by simp)
      have hzl : (vs.zip uvs).length = vs.length := by
        rw [List.length_zip, hv]
        omega
      simp only [List.map_cons, List.sum_cons] at hfit
      have hstep := tri_list_uv_append_fit bs g vs uvs (by omega) hv
      obtain ⟨g', hrun, hpend, hfl, htid, hcol, hds⟩ :=
        ih { g with textured :=
          { g.textured with pending := g.textured.pending ++ vs.zip uvs } }
          (fun q hq => hlen q (by simp [hq]))
          (by
            simp only [List.length_append, hzl]
            omega)
      refine ⟨g', ?_, ?_, hfl, htid, hcol, hds⟩
      · rw [GlGraphics.tri_list_uv_go, hstep]
        exact hrun
      · rw [hpend]
        simp

lemma tri_list_uv_go_ok (bs : ℕ)
    (batches : List (List Vertex × List UVCoord)) (g : GlGraphics)
    (hfit : ∀ p ∈ batches, (p : List Vertex × List UVCoord).1.length ≤
      capacity bs ∧ p.2.length = p.1.length)
    (hpend : g.textured.pending.length ≤ capacity bs) :
    ∃ g', g.tri_list_uv_go bs batches = .ok g' ∧
      g'.textured.pending.length ≤ capacity bs := by
  induction batches generalizing g with
  | nil => exact ⟨g, rfl, hpend⟩
  | cons p rest ih =>
      obtain ⟨vs, uvs⟩ := p
      have hvs : vs.length ≤ capacity bs := (hfit (vs, uvs) (by simp)).1
      have hv : uvs.length = vs.length := (hfit (vs, uvs) (by simp)).2
      have hzl : (vs.zip uvs).length = vs.length := by
        rw [List.length_zip, hv]
        omega
      have hrest : ∀ q ∈ rest, (q : List Vertex × List UVCoord).1.length ≤
          capacity bs ∧ q.2.length = q.1.length :=
        fun q hq => hfit q (by simp [hq])
      by_cases hcase : g.textured.pending.length + vs.length ≤ capacity bs
      · obtain ⟨g', hrun, hle⟩ :=
          ih { g with textured :=
            { g.textured with
              pending := g.textured.pending ++ vs.zip uvs } }
            hrest (by simp only [List.length_append, hzl]; omega)
        refine ⟨g', ?_, hle⟩
        rw [GlGraphics.tri_list_uv_go,
          tri_list_uv_append_fit bs g vs uvs hcase hv]
        exact hrun
      · obtain ⟨g', hrun, hle⟩ :=
          ih { g.use_program g.textured.program with textured :=
            { program := g.textured.program,
              pending := vs.zip uvs,
              last_texture_id := g.textured.last_texture_id,
              last_color := g.textured.last_color,
              flushed := g.textured.flushed ++
                [(g.textured.last_texture_id, g.textured.last_color,
                  g.textured.pending)] } }
            hrest (by simp only [hzl]; omega)
        refine ⟨g', ?_, hle⟩
        rw [GlGraphics.tri_list_uv_go,
          tri_list_uv_append_over bs g vs uvs (by omega) hvs hv]
        exact hrun

/-- The `tri_list_uv` prologue when draw state, texture id and colour
are all unchanged: the rebind branch is skipped, the textured shader is
untouched (the last-id/last-colour rewrite stores the values already
recorded). -/
lemma tri_list_uv_keep (bs : ℕ) (gamma : Color → Color) (ds : DrawState)
    (c : Color) (tid : ℕ) (batches : List (List Vertex × List UVCoord))
    (g : GlGraphics)
    (hds : g.current_draw_state = some ds)
    (htid : g.textured.last_texture_id = tid)
    (hcol : g.textured.last_color = gamma c) :
    ∃ g₁, g.tri_list_uv bs gamma ds c tid batches =
        GlGraphics.tri_list_uv_go bs batches g₁ ∧
      g₁.textured = g.textured ∧
      g₁.current_draw_state = some ds := by
  obtain ⟨gcol, gtex, gcpr, gcds, gbinds⟩ := g
  obtain ⟨tprog, tpend, tltid, tlc, tfl⟩ := gtex
  dsimp only at hds htid hcol
  subst hds
  subst htid
  subst hcol
  unfold GlGraphics.tri_list_uv
  by_cases h1 : gcol.offset > 0 <;>
    simp [h1, use_program_draw_state, use_program_textured,
      GlGraphics.use_draw_state] <;>
    exact ⟨_, rfl, rfl, rfl⟩

/-- The `tri_list_uv` prologue when the rebind branch fires on an empty
textured buffer: the flush is skipped by its `offset > 0` guard, so no
flush event is produced; only the draw state and the cached texture
id/colour are updated. -/
lemma tri_list_uv_rebind_empty (bs : ℕ) (gamma : Color → Color)
    (ds : DrawState) (c : Color) (tid : ℕ)
    (batches : List (List Vertex × List UVCoord)) (g : GlGraphics)
    (hcond : g.current_draw_state = none ∨
      g.current_draw_state ≠ some ds ∨
      g.textured.last_texture_id ≠ tid ∨
      g.textured.last_color ≠ gamma c)
    (hpend : g.textured.pending = []) :
    ∃ g₁, g.tri_list_uv bs gamma ds c tid batches =
        GlGraphics.tri_list_uv_go bs batches g₁ ∧
      g₁.textured.pending = [] ∧
      g₁.textured.flushed = g.textured.flushed ∧
      g₁.textured.last_texture_id = tid ∧
      g₁.textured.last_color = gamma c ∧
      g₁.current_draw_state = some ds := by
  obtain ⟨gcol, gtex, gcpr, gcds, gbinds⟩ := g
  obtain ⟨tprog, tpend, tltid, tlc, tfl⟩ := gtex
  dsimp only at hcond hpend
  subst hpend
  unfold GlGraphics.tri_list_uv
  rcases hcond with h | h | h | h <;>
    by_cases h1 : gcol.offset > 0 <;>
    by_cases h3 : gcds = none <;>
    simp [h, h1, h3, use_program_draw_state, use_program_textured,
      GlGraphics.use_draw_state] <;>
    exact ⟨_, rfl, rfl, rfl, rfl, rfl, rfl⟩

/-- The `tri_list_uv` prologue when the rebind branch fires on a
non-empty textured buffer: exactly one flush is submitted, carrying the
previously cached texture id and colour and the buffered vertices. -/
lemma tri_list_uv_rebind_flush (bs : ℕ) (gamma : Color → Color)
    (ds : DrawState) (c : Color) (tid : ℕ)
    (batches : List (List Vertex × List UVCoord)) (g : GlGraphics)
    (hcond : g.current_draw_state = none ∨
      g.current_draw_state ≠ some ds ∨
      g.textured.last_texture_id ≠ tid ∨
      g.textured.last_color ≠ gamma c)
    (hpend : g.textured.pending ≠ []) :
    ∃ g₁, g.tri_list_uv bs gamma ds c tid batches =
        GlGraphics.tri_list_uv_go bs batches g₁ ∧
      g₁.textured.pending = [] ∧
      g₁.textured.flushed = g.textured.flushed ++
        [(g.textured.last_texture_id, g.textured.last_color,
          g.textured.pending)] ∧
      g₁.textured.last_texture_id = tid ∧
      g₁.textured.last_color = gamma c ∧
      g₁.current_draw_state = some ds := by
  obtain ⟨gcol, gtex, gcpr, gcds, gbinds⟩ := g
  obtain ⟨tprog, tpend, tltid, tlc, tfl⟩ := gtex
  dsimp only at hcond hpend
  unfold GlGraphics.tri_list_uv
  rcases hcond with h | h | h | h <;>
    by_cases h1 : gcol.offset > 0 <;>
    by_cases h3 : gcds = none <;>
    simp [h, h1, h3, use_program_draw_state, use_program_textured,
      GlGraphics.use_draw_state, Textured.offset,
      Textured.flush, List.length_pos, hpend] <;>
    exact ⟨_, rfl, rfl, rfl, rfl, rfl, rfl⟩

/-- From any state whose textured buffer is empty (the start of a
frame, or right after a flush) a `tri_list_uv` call produces no flush in
its prologue, whether or not the rebind branch fires. -/
lemma tri_list_uv_prologue_empty (bs : ℕ) (gamma : Color → Color)
    (ds : DrawState) (c : Color) (tid : ℕ)
    (batches : List (List Vertex × List UVCoord)) (g : GlGraphics)
    (h0 : g.textured.pending = []) :
    ∃ g₁, g.tri_list_uv bs gamma ds c tid batches =
        GlGraphics.tri_list_uv_go bs batches g₁ ∧
      g₁.textured.pending = [] ∧
      g₁.textured.flushed = g.textured.flushed ∧
      g₁.textured.last_texture_id = tid ∧
      g₁.textured.last_color = gamma c ∧
      g₁.current_draw_state = some ds := by
  by_cases hcond : (g.current_draw_state = none ∨
      g.current_draw_state ≠ some ds ∨
      g.textured.last_texture_id ≠ tid ∨
      g.textured.last_color ≠ gamma c)
  · exact tri_list_uv_rebind_empty bs gamma ds c tid batches g hcond h0
  · push_neg at hcond
    obtain ⟨hc1, hc2, hc3, hc4⟩ := hcond
    obtain ⟨g₁, heq, htex, hdsr⟩ :=
      tri_list_uv_keep bs gamma ds c tid batches g hc2 hc3 hc4
    exact ⟨g₁, heq, by rw [htex]; exact h0, by rw [htex],
      by rw [htex]; exact hc3, by rw [htex]; exact hc4, hdsr⟩

lemma flatten_zip_length (batches : List (List Vertex × List UVCoord))
    (hlen : ∀ p ∈ batches, (p : List Vertex × List UVCoord).2.length =
      p.1.length) :
    ((batches.map (fun p => p.1.zip p.2)).flatten).length =
      (batches.map (fun p => p.1.length)).sum := by
  induction batches with
  | nil => simp
  | cons p rest ih =>
      obtain ⟨vs, uvs⟩ := p
      have hv : uvs.length = vs.length := hlen (vs, uvs) (by simp)
      simp only [List.map_cons, List.flatten_cons, List.length_append,
        List.sum_cons, List.length_zip, hv, Nat.min_self]
      rw [ih (fun q hq => hlen q (by simp [hq]))]

/-- The `tri_list_uv` prologue never grows the textured buffer. -/
lemma tri_list_uv_prologue_pending (bs : ℕ) (gamma : Color → Color)
    (ds : DrawState) (c : Color) (tid : ℕ)
    (batches : List (List Vertex × List UVCoord)) (g : GlGraphics) :
    ∃ g₁, g.tri_list_uv bs gamma ds c tid batches =
        GlGraphics.tri_list_uv_go bs batches g₁ ∧
      g₁.textured.pending.length ≤ g.textured.pending.length := by
  by_cases hcond : (g.current_draw_state = none ∨
      g.current_draw_state ≠ some ds ∨
      g.textured.last_texture_id ≠ tid ∨
      g.textured.last_color ≠ gamma c)
  · by_cases hp : g.textured.pending = []
    · obtain ⟨g₁, heq, hp1, -, -, -, -⟩ :=
        tri_list_uv_rebind_empty bs gamma ds c tid batches g hcond hp
      exact ⟨g₁, heq, by rw [hp1]; simp⟩
    · obtain ⟨g₁, heq, hp1, -, -, -, -⟩ :=
        tri_list_uv_rebind_flush bs gamma ds c tid batches g hcond hp
      exact ⟨g₁, heq, by rw [hp1]; simp⟩
  · push_neg at hcond
    obtain ⟨hc1, hc2, hc3, hc4⟩ := hcond
    obtain ⟨g₁, heq, htex, -⟩ :=
      tri_list_uv_keep bs gamma ds c tid batches g hc2 hc3 hc4
    exact ⟨g₁, heq, by rw [htex]⟩

/-- A `tri_list_uv` call succeeds whenever each of its batches fits the
whole buffer on its own and the buffer starts within capacity, and it
leaves the buffer within capacity again. -/
lemma tri_list_uv_ok (bs : ℕ) (gamma : Color → Color) (ds : DrawState)
    (c : Color) (tid : ℕ) (batches : List (List Vertex × List UVCoord))
    (g : GlGraphics)
    (hfit : ∀ p ∈ batches, (p : List Vertex × List UVCoord).1.length ≤
      capacity bs ∧ p.2.length = p.1.length)
    (hpend : g.textured.pending.length ≤ capacity bs) :
    ∃ g', g.tri_list_uv bs gamma ds c tid batches = .ok g' ∧
      g'.textured.pending.length ≤ capacity bs := by
  obtain ⟨g₁, heq, hle⟩ :=
    tri_list_uv_prologue_pending bs gamma ds c tid batches g
  obtain ⟨g', hrun, hle2⟩ :=
    tri_list_uv_go_ok bs batches g₁ hfit (le_trans hle hpend)
  exact ⟨g', by rw [heq]; exact hrun, hle2⟩

/-- A whole sequence of `tri_list_uv` calls succeeds whenever every
batch of every call fits the whole buffer on its own. -/
lemma tri_list_uv_calls_ok (bs : ℕ) (gamma : Color → Color)
    (calls : List (DrawState × Color × ℕ ×
      List (List Vertex × List UVCoord))) (g : GlGraphics)
    (hfit : ∀ call ∈ calls, ∀ p ∈
      (call : DrawState × Color × ℕ ×
        List (List Vertex × List UVCoord)).2.2.2,
      (p : List Vertex × List UVCoord).1.length ≤ capacity bs ∧
        p.2.length = p.1.length)
    (hpend : g.textured.pending.length ≤ capacity bs) :
    ∃ g', g.tri_list_uv_calls bs gamma calls = .ok g' := by
  induction calls generalizing g with
  | nil => exact ⟨g, rfl⟩
  | cons call rest ih =>
      obtain ⟨ds, c, tid, batches⟩ := call
      have hthis : ∀ p ∈ batches,
          (p : List Vertex × List UVCoord).1.length ≤ capacity bs ∧
            p.2.length = p.1.length :=
        fun p hp => hfit (ds, c, tid, batches) (by simp) p hp
      obtain ⟨g₁, hrun, hle⟩ :=
        tri_list_uv_ok bs gamma ds c tid batches g hthis hpend
      obtain ⟨g', hrun2⟩ :=
        ih g₁ (fun q hq => hfit q (by simp [hq])) hle
      exact ⟨g', by rw [GlGraphics.tri_list_uv_calls, hrun]; exact hrun2⟩

/-! ## Claims C4, C5 — overflow handling and channel validation -/

/-- A custom shader declaring only the position channel and an index
buffer (used to exercise the index-channel checks on concrete input). -/
def exampleIndexShader : CustomShader :=
  { program := 3, cap := 100, pending := [], colour := none, uv := none,
    normal := none, indexBuf := some [], texture_id := none,
    has_texture := false, flushCount := 0 }

/-- A custom shader declaring only the position channel. -/
def examplePlainShader : CustomShader :=
  { program := 3, cap := 100, pending := [], colour := none, uv := none,
    normal := none, indexBuf := none, texture_id := none,
    has_texture := false, flushCount := 0 }

/-- **C4 (amended).** A colour-fill, textured-fill or custom-shader
batch that would exceed the remaining buffer space is recovered
automatically by an early flush and never surfaced to the caller,
provided each single batch fits within the total buffer capacity; a
single batch larger than the whole buffer aborts (see the
counterexample). -/
theorem c4_overflow_recovered (bs cp tp : ℕ) (gamma : Color → Color)
    (ds : DrawState) (color : Color) (calls : List (List (List Vertex)))
    (uvCalls : List (DrawState × Color × ℕ ×
      List (List Vertex × List UVCoord)))
    (sh : CustomShader) (ds' : DrawState) (vertices : List Vertex)
    (indices : Option (List ℕ)) (texture : Option (ℕ × List UVCoord))
    (colour : Option (List Color)) (normals : Option (List Normal))
    (g : GlGraphics)
    (hfit : ∀ call ∈ calls, ∀ b ∈ call, b.length ≤ capacity bs)
    (hfituv : ∀ call ∈ uvCalls, ∀ p ∈
      (call : DrawState × Color × ℕ ×
        List (List Vertex × List UVCoord)).2.2.2,
      (p : List Vertex × List UVCoord).1.length ≤ capacity bs ∧
        p.2.length = p.1.length)
    (hwf_uv : sh.uv.isSome = sh.has_texture)
    (hwf_tid : sh.texture_id.isSome = sh.has_texture)
    (hitems : vertices.length ≤ sh.cap)
    (hsup : suppliedOk sh vertices.length indices texture colour normals =
      true) :
    okB (triListSession bs gamma ds color calls (GlGraphics.new cp tp)) =
      true ∧
    okB (triListUvSession bs gamma uvCalls (GlGraphics.new cp tp)) =
      true ∧
    okB (g.shader_draw gamma sh ds' vertices indices texture colour
      normals) = true := by
  refine ⟨?_, ?_, ?_⟩
  · obtain ⟨g', hrun, -⟩ :=
      triListSession_data bs cp tp gamma ds color calls hfit
    rw [hrun]
    rfl
  · obtain ⟨g', hrun⟩ := tri_list_uv_calls_ok bs gamma uvCalls
      ((GlGraphics.new cp tp).draw_begin) hfituv
      (by simp [GlGraphics.new, GlGraphics.draw_begin,
        GlGraphics.clear_program, Textured.new])
    unfold triListUvSession
    rw [hrun]
    rfl
  · obtain ⟨p, hp⟩ := (shader_draw_spec gamma sh ds' vertices indices
      texture colour normals g hwf_uv hwf_tid hitems).1 hsup
    rw [hp]
    rfl

set_option maxRecDepth 10000 in
/-- Witness for C4: an 80-vertex batch following a 30-vertex batch at
capacity 100 overflows, is recovered by an early flush, and the
colour-fill run completes; the same batch sizes through the textured
fill also complete; a custom draw of 3 vertices on the plain shader
completes. -/
theorem c4_witness :
    ((∀ call ∈ [[List.replicate 30 1, List.replicate 80 2]],
        ∀ b ∈ call, List.length b ≤ capacity 1) ∧
      (∀ call ∈ [((0 : DrawState), (9 : Color), (42 : ℕ),
          [(List.replicate 30 1, List.replicate 30 9),
           (List.replicate 80 2, List.replicate 80 8)])], ∀ p ∈
        (call : DrawState × Color × ℕ ×
          List (List Vertex × List UVCoord)).2.2.2,
        (p : List Vertex × List UVCoord).1.length ≤ capacity 1 ∧
          p.2.length = p.1.length) ∧
      examplePlainShader.uv.isSome = examplePlainShader.has_texture ∧
      examplePlainShader.texture_id.isSome =
        examplePlainShader.has_texture ∧
      List.length [5, 6, 7] ≤ examplePlainShader.cap ∧
      suppliedOk examplePlainShader (List.length [5, 6, 7]) none none none
        none = true) ∧
    okB (triListSession 1 (fun c => c) 0 9
      [[List.replicate 30 1, List.replicate 80 2]]
      (GlGraphics.new 1 2)) = true ∧
    okB (triListUvSession 1 (fun c => c)
      [(0, 9, 42, [(List.replicate 30 1, List.replicate 30 9),
        (List.replicate 80 2, List.replicate 80 8)])]
      (GlGraphics.new 1 2)) = true ∧
    okB ((GlGraphics.new 1 2).shader_draw (fun c => c) examplePlainShader
      0 [5, 6, 7] none none none none) = true :=
  ⟨⟨by decide, by decide, by decide, by decide, by decide, by decide⟩,
   c4_overflow_recovered 1 1 2 (fun c => c) 0 9
     [[List.replicate 30 1, List.replicate 80 2]]
     [(0, 9, 42, [(List.replicate 30 1, List.replicate 30 9),
       (List.replicate 80 2, List.replicate 80 8)])]
     examplePlainShader 0 [5, 6, 7] none none none none
     (GlGraphics.new 1 2) (by decide) (by decide) (by decide) (by decide)
     (by decide) (by decide)⟩

set_option maxRecDepth 10000 in
/-- Counterexample to C4 as stated: a single batch larger than the whole
buffer is not recovered — the colour-fill path panics on the slice
write, and the custom-shader path fails its capacity assert — so the
overflow is surfaced to the caller as an abort. -/
theorem c4_counterexample :
    triListSession 1 (fun c => c) 0 0 [[List.replicate 101 0]]
      (GlGraphics.new 1 2) = .error .indexOutOfBounds ∧
    (GlGraphics.new 1 2).shader_draw (fun c => c) examplePlainShader 0
      (List.replicate 101 0) none none none none =
      .error .capacityAssert :=
  ⟨by rfl, by rfl⟩

/-- **C5 (amended).** For a well-formed custom shader (uv channel and
texture-id slot declared exactly when it has a texture) and a batch
fitting the buffer, `shader_draw` aborts with a usage panic exactly when
the supplied channels violate the enforced discipline: colour, uv+
texture, and normal arrays must each be supplied iff declared and carry
one entry per vertex, and indices may only be supplied when an index
buffer is declared.  Omitting indices for a shader that declares an
index buffer is accepted (the claim wrongly requires an abort there),
and index-array lengths are never checked. -/
theorem c5_usage_violation_iff (gamma : Color → Color) (sh : CustomShader)
    (ds : DrawState) (vertices : List Vertex) (indices : Option (List ℕ))
    (texture : Option (ℕ × List UVCoord)) (colour : Option (List Color))
    (normals : Option (List Normal)) (g : GlGraphics)
    (hwf_uv : sh.uv.isSome = sh.has_texture)
    (hwf_tid : sh.texture_id.isSome = sh.has_texture)
    (hitems : vertices.length ≤ sh.cap) :
    g.shader_draw gamma sh ds vertices indices texture colour normals =
        .error .usageViolation ↔
      suppliedOk sh vertices.length indices texture colour normals =
        false := by
  obtain ⟨hok, husage⟩ := shader_draw_spec gamma sh ds vertices indices
    texture colour normals g hwf_uv hwf_tid hitems
  constructor
  · intro herr
    cases hsup : suppliedOk sh vertices.length indices texture colour
      normals with
    | true =>
        obtain ⟨p, hp⟩ := hok hsup
        rw [hp] at herr
        cases herr
    | false => rfl
  · exact husage

/-- Witness for C5: supplying an unexpected colour array to the plain
shader is a usage violation; supplying nothing is accepted. -/
theorem c5_witness :
    (examplePlainShader.uv.isSome = examplePlainShader.has_texture ∧
      examplePlainShader.texture_id.isSome =
        examplePlainShader.has_texture ∧
      List.length [5, 6, 7] ≤ examplePlainShader.cap) ∧
    ((GlGraphics.new 1 2).shader_draw (fun c => c) examplePlainShader 0
        [5, 6, 7] none none (some [1, 2, 3]) none =
        .error .usageViolation ↔
      suppliedOk examplePlainShader (List.length [5, 6, 7]) none none
        (some [1, 2, 3]) none = false) :=
  ⟨⟨by decide, by decide, by decide⟩,
   c5_usage_violation_iff (fun c => c) examplePlainShader 0 [5, 6, 7]
     none none (some [1, 2, 3]) none (GlGraphics.new 1 2) (by decide)
     (by decide) (by decide)⟩

/-- Counterexample to C5 as stated: omitting the index array for a
shader that declares an index buffer does not abort — the call completes
normally, with no `UsageViolation`. -/
theorem c5_counterexample :
    okB ((GlGraphics.new 1 2).shader_draw (fun c => c) exampleIndexShader
      0 [5, 6, 7] none none none none) = true ∧
    (GlGraphics.new 1 2).shader_draw (fun c => c) exampleIndexShader 0
      [5, 6, 7] none none none none ≠ .error .usageViolation := by
  refine ⟨by decide, ?_⟩
  intro h
  have hfalse : okB ((GlGraphics.new 1 2).shader_draw (fun c => c)
      exampleIndexShader 0 [5, 6, 7] none none none none) = false := by
    rw [h]
    rfl
  have htrue : okB ((GlGraphics.new 1 2).shader_draw (fun c => c)
      exampleIndexShader 0 [5, 6, 7] none none none none) = true := by
    decide
  rw [htrue] at hfalse
  cases hfalse

/-! ## Claim C6 — textured-fill rebind flushes -/

/-- **C6 (corrected).** Two consecutive `tri_list_uv` calls whose
combined vertex count fits the buffer, starting from any state whose
textured buffer is empty: if the second call changes the draw state,
the texture id or the (gamma-converted) colour, exactly one `Textured`
flush occurs between the two calls' appends — provided the first call
actually buffered vertices.  If draw state, texture id and colour are
all unchanged, no intervening flush occurs.  But if the first call
supplied no vertices, no intervening flush occurs either, even on a
switch, because the flush inside the rebind branch is guarded by
`offset > 0`: the original claim's `exactly one` fails there. -/
theorem c6_texture_switch_flush (bs : ℕ) (gamma : Color → Color)
    (ds1 ds2 : DrawState) (c1 c2 : Color) (tex1 tex2 : ℕ)
    (batches1 batches2 : List (List Vertex × List UVCoord))
    (g₀ : GlGraphics)
    (h0 : g₀.textured.pending = [])
    (hlen1 : ∀ p ∈ batches1,
      (p : List Vertex × List UVCoord).2.length = p.1.length)
    (hlen2 : ∀ p ∈ batches2,
      (p : List Vertex × List UVCoord).2.length = p.1.length)
    (hfit : (batches1.map (fun p => p.1.length)).sum +
      (batches2.map (fun p => p.1.length)).sum ≤ capacity bs) :
    ∃ g₁, g₀.tri_list_uv bs gamma ds1 c1 tex1 batches1 = .ok g₁ ∧
      g₁.textured.flushed.length = g₀.textured.flushed.length ∧
      ∃ g₂, g₁.tri_list_uv bs gamma ds2 c2 tex2 batches2 = .ok g₂ ∧
        (((ds2 ≠ ds1 ∨ tex2 ≠ tex1 ∨ gamma c2 ≠ gamma c1) ∧
            (batches1.map (fun p => p.1.length)).sum ≠ 0) →
          g₂.textured.flushed.length = g₁.textured.flushed.length + 1) ∧
        ((ds2 = ds1 ∧ tex2 = tex1 ∧ gamma c2 = gamma c1) →
          g₂.textured.flushed.length = g₁.textured.flushed.length) ∧
        ((batches1.map (fun p => p.1.length)).sum = 0 →
          g₂.textured.flushed.length = g₁.textured.flushed.length) := by
  obtain ⟨g₁p, heq1, hp1, hf1, ht1, hc1, hd1⟩ :=
    tri_list_uv_prologue_empty bs gamma ds1 c1 tex1 batches1 g₀ h0
  obtain ⟨g₁, hrun1, hpend1, hfl1, htid1, hcol1, hds1⟩ :=
    tri_list_uv_go_data bs batches1 g₁p hlen1
      (by rw [hp1]; simp only [List.length_nil, Nat.zero_add]; omega)
  have hP : g₁.textured.pending =
      (batches1.map (fun p => p.1.zip p.2)).flatten := by
    rw [hpend1, hp1]
    simp
  have hPlen : g₁.textured.pending.length =
      (batches1.map (fun p => p.1.length)).sum := by
    rw [hP]
    exact flatten_zip_length batches1 hlen1
  have hcds : g₁.current_draw_state = some ds1 := hds1.trans hd1
  have htidv : g₁.textured.last_texture_id = tex1 := htid1.trans ht1
  have hlc : g₁.textured.last_color = gamma c1 := hcol1.trans hc1
  refine ⟨g₁, by rw [heq1]; exact hrun1, by rw [hfl1, hf1], ?_⟩
  by_cases hs1 : (batches1.map (fun p => p.1.length)).sum = 0
  · have hPnil : g₁.textured.pending = [] :=
      List.eq_nil_of_length_eq_zero (by rw [hPlen]; exact hs1)
    obtain ⟨g₂p, heq2, hp2, hf2, -, -, -⟩ :=
      tri_list_uv_prologue_empty bs gamma ds2 c2 tex2 batches2 g₁ hPnil
    obtain ⟨g₂, hrun2, -, hfl2, -, -, -⟩ :=
      tri_list_uv_go_data bs batches2 g₂p hlen2
        (by rw [hp2]; simp only [List.length_nil, Nat.zero_add]; omega)
    refine ⟨g₂, by rw [heq2]; exact hrun2, ?_, ?_, ?_⟩
    · exact fun h => absurd hs1 h.2
    · exact fun _ => by rw [hfl2, hf2]
    · exact fun _ => by rw [hfl2, hf2]
  · have hPne : g₁.textured.pending ≠ [] := by
      intro hnil
      rw [hnil] at hPlen
      exact hs1 hPlen.symm
    have rebindCase : (g₁.current_draw_state = none ∨
        g₁.current_draw_state ≠ some ds2 ∨
        g₁.textured.last_texture_id ≠ tex2 ∨
        g₁.textured.last_color ≠ gamma c2) →
        ∃ g₂, g₁.tri_list_uv bs gamma ds2 c2 tex2 batches2 = .ok g₂ ∧
          g₂.textured.flushed.length =
            g₁.textured.flushed.length + 1 := by
      intro hcond2
      obtain ⟨g₂p, heq2, hp2, hf2, -, -, -⟩ :=
        tri_list_uv_rebind_flush bs gamma ds2 c2 tex2 batches2 g₁ hcond2
          hPne
      obtain ⟨g₂, hrun2, -, hfl2, -, -, -⟩ :=
        tri_list_uv_go_data bs batches2 g₂p hlen2
          (by rw [hp2]; simp only [List.length_nil, Nat.zero_add]; omega)
      refine ⟨g₂, by rw [heq2]; exact hrun2, ?_⟩
      rw [hfl2, hf2]
      simp
    by_cases hd : ds2 = ds1
    · by_cases ht : tex2 = tex1
      · by_cases hc : gamma c2 = gamma c1
        · obtain ⟨g₂p, heq2, htex2, -⟩ :=
            tri_list_uv_keep bs gamma ds2 c2 tex2 batches2 g₁
              (by rw [hd]; exact hcds) (by rw [ht]; exact htidv)
              (by rw [hc]; exact hlc)
          obtain ⟨g₂, hrun2, -, hfl2, -, -, -⟩ :=
            tri_list_uv_go_data bs batches2 g₂p hlen2
              (by rw [htex2, hPlen]; omega)
          refine ⟨g₂, by rw [heq2]; exact hrun2, ?_, ?_, ?_⟩
          · rintro ⟨h | h | h, -⟩
            · exact absurd hd h
            · exact absurd ht h
            · exact absurd hc h
          · exact fun _ => by rw [hfl2, htex2]
          · exact fun h => absurd h hs1
        · obtain ⟨g₂, hrun2, hplus⟩ := rebindCase (Or.inr (Or.inr
            (Or.inr (by rw [hlc]; exact fun h => hc h.symm))))
          exact ⟨g₂, hrun2, fun _ => hplus,
            fun hsw => absurd hsw.2.2 hc, fun h => absurd h hs1⟩
      · obtain ⟨g₂, hrun2, hplus⟩ := rebindCase (Or.inr (Or.inr
          (Or.inl (by rw [htidv]; exact fun h => ht h.symm))))
        exact ⟨g₂, hrun2, fun _ => hplus,
          fun hsw => absurd hsw.2.1 ht, fun h => absurd h hs1⟩
    · obtain ⟨g₂, hrun2, hplus⟩ := rebindCase (Or.inr (Or.inl (by
        rw [hcds]
        intro h
        exact hd (Option.some.inj h).symm)))
      exact ⟨g₂, hrun2, fun _ => hplus,
        fun hsw => absurd hsw.1 hd, fun h => absurd h hs1⟩

/-- Counterexample to C6 as stated: the first `tri_list_uv` call
supplies no vertices, the second switches the texture id; the rebind
branch fires but its flush is skipped by the `offset > 0` guard, so
zero `Textured` flushes occur instead of the claimed exactly one. -/
theorem c6_counterexample :
    okB (twoUvCalls 1 (fun c => c) 5 7 42 [([], [])] 5 7 43 [([1], [9])]
      ((GlGraphics.new 1 2).draw_begin)) = true ∧
    texturedFlushCountOf (twoUvCalls 1 (fun c => c) 5 7 42 [([], [])] 5 7
      43 [([1], [9])] ((GlGraphics.new 1 2).draw_begin)) = 0 :=
  ⟨by decide, by decide⟩

/-- Witness for C6: from a fresh frame, a two-vertex first call then a
draw-state switch before a one-vertex second call, all within capacity
100; the second call triggers exactly one intervening flush. -/
theorem c6_witness :
    (((GlGraphics.new 1 2).draw_begin).textured.pending = [] ∧
      (∀ p ∈ [(([1, 2] : List Vertex), ([8, 9] : List UVCoord))],
        (p : List Vertex × List UVCoord).2.length = p.1.length) ∧
      (∀ p ∈ [(([3] : List Vertex), ([9] : List UVCoord))],
        (p : List Vertex × List UVCoord).2.length = p.1.length) ∧
      ([(([1, 2] : List Vertex), ([8, 9] : List UVCoord))].map
          (fun p => p.1.length)).sum +
        ([(([3] : List Vertex), ([9] : List UVCoord))].map
          (fun p => p.1.length)).sum ≤ capacity 1) ∧
    (∃ g₁, ((GlGraphics.new 1 2).draw_begin).tri_list_uv 1 (fun c => c)
        5 7 42 [([1, 2], [8, 9])] = .ok g₁ ∧
      ∃ g₂, g₁.tri_list_uv 1 (fun c => c) 6 7 42 [([3], [9])] = .ok g₂ ∧
        g₂.textured.flushed.length = g₁.textured.flushed.length + 1) :=
  ⟨⟨by decide, by decide, by decide, by decide⟩, by
    obtain ⟨g₁, h1, -, g₂, h2, hsw, -, -⟩ :=
      c6_texture_switch_flush 1 (fun c => c) 5 6 7 7 42 42
        [([1, 2], [8, 9])] [([3], [9])] ((GlGraphics.new 1 2).draw_begin)
        (by decide) (by decide) (by decide) (by decide)
    exact ⟨g₁, h1, g₂, h2, hsw ⟨Or.inl (by decide), by decide⟩⟩⟩

end AndroidStarter
